import Mathlib

/-!
# cilantro `NormalEstimation`: shallow embedding and verified properties

The embedding follows `src/src/normal_estimation.cpp` and
`src/include/cilantro/normal_estimation.hpp`.

Modelling conventions.

* `float` is an arbitrary type `F` with an arithmetic `FloatArith F`.  The operations `+`,
  `-`, `*` are not required to be exact: they may round, underflow and overflow.  Only
  properties that IEEE-754 arithmetic has in every sign-symmetric rounding mode (round to
  nearest in particular) are assumed: not-a-number propagates and compares false, rounding
  commutes with negation, and multiplication by `-1.0f` is exact.  The two zeros are not
  distinguished, nor are the payloads of not-a-number.  Every general theorem holds for each
  such arithmetic, binary32 included.
* `Scalar`, exact rational arithmetic with one not-a-number value, is one such arithmetic.  It
  serves for the worked instances, whose data are small integers and dyadic fractions on
  which binary32 arithmetic is exact as well.
* `size_t` is `Nat`; no arithmetic is performed on sizes, so no wrap-around can occur.
* `std::vector` is `List`.  `operator[]` outside the bounds is undefined behaviour in the
  source; the embedding is total and returns `none` on that branch.
* Pointers are represented by the current value of their pointee (`NULL` is `none`).
* Calls into the two collaborators (spatial index, plane fitter) are recorded in a trace, so
  that statements such as "performs no neighbour query" can be expressed.
* The OpenMP loop is executed in ascending index order.
-/

set_option linter.unusedSectionVars false

namespace cilantro

/-! ## Scalars, vectors, matrices -/

/-- Arithmetic of the C++ type `float` on a type `F` of values: the constants and operations
the estimator uses, and the properties of them that the proofs rely on.  The results of
`add`, `sub` and `mul` are otherwise unconstrained, so that rounding, underflow and overflow
are covered. -/
class FloatArith (F : Type) where
  /-- The value `std::numeric_limits<float>::quiet_NaN()`. -/
  quiet_NaN : F
  /-- The literal `0.0f`. -/
  zero : F
  /-- The literal `-1.0f`. -/
  negOne : F
  /-- Operator `+` on `float`. -/
  add : F → F → F
  /-- Operator `-` on `float`. -/
  sub : F → F → F
  /-- Operator `*` on `float`. -/
  mul : F → F → F
  /-- Unary minus on `float`. -/
  neg : F → F
  /-- Operator `<` on `float`. -/
  lt : F → F → Bool
  /-- Operator `>=` on `float`. -/
  ge : F → F → Bool
  /-- Test `std::isnan`. -/
  isNaN : F → Bool
  /-- There is one not-a-number value. -/
  isNaN_iff : ∀ a, isNaN a = true ↔ a = quiet_NaN
  /-- Negating twice gives the value back. -/
  neg_twice : ∀ a, neg (neg a) = a
  /-- The negation of not-a-number is not-a-number. -/
  neg_quiet_NaN : neg quiet_NaN = quiet_NaN
  /-- Multiplication by `-1.0f` is exact: it only changes the sign. -/
  mul_negOne : ∀ a, mul a negOne = neg a
  /-- Rounding of a product commutes with negation of the left factor. -/
  neg_mul_left : ∀ a b, mul (neg a) b = neg (mul a b)
  /-- Rounding of a product commutes with negation of the right factor. -/
  neg_mul_right : ∀ a b, mul a (neg b) = neg (mul a b)
  /-- Rounding of a sum commutes with negation of both terms. -/
  neg_add_neg : ∀ a b, add (neg a) (neg b) = neg (add a b)
  /-- A product with not-a-number on the left is not-a-number. -/
  nan_mul : ∀ b, mul quiet_NaN b = quiet_NaN
  /-- A sum with not-a-number on the left is not-a-number. -/
  nan_add : ∀ b, add quiet_NaN b = quiet_NaN
  /-- Zero is not below zero. -/
  lt_zero_zero : lt zero zero = false
  /-- A value above zero is not below zero. -/
  lt_zero_asymm : ∀ a, lt zero a = true → lt a zero = false
  /-- The negation of a value below zero is at least zero. -/
  ge_neg_of_lt_zero : ∀ a, lt a zero = true → ge (neg a) zero = true
  /-- A number that is not below zero is at least zero. -/
  ge_of_not_lt_zero : ∀ a, lt a zero = false → isNaN a = false → ge a zero = true

variable {F : Type} [FloatArith F]

/-- Values of the exact arithmetic: a rational number or not-a-number. -/
inductive Scalar where
  | nan : Scalar
  | fin (q : ℚ) : Scalar
deriving DecidableEq

namespace Scalar

/-- The value `std::numeric_limits<float>::quiet_NaN()`. -/
def quiet_NaN : Scalar := nan

/-- Operator `+`, without rounding. -/
def add : Scalar → Scalar → Scalar
  | fin a, fin b => fin (a + b)
  | _, _ => nan

/-- Operator `-`, without rounding. -/
def sub : Scalar → Scalar → Scalar
  | fin a, fin b => fin (a - b)
  | _, _ => nan

/-- Operator `*`, without rounding. -/
def mul : Scalar → Scalar → Scalar
  | fin a, fin b => fin (a * b)
  | _, _ => nan

/-- Unary minus. -/
def neg : Scalar → Scalar
  | fin a => fin (-a)
  | nan => nan

/-- Operator `<`: false as soon as one side is not a number. -/
def lt : Scalar → Scalar → Bool
  | fin a, fin b => decide (a < b)
  | _, _ => false

/-- Operator `>=`: false as soon as one side is not a number. -/
def ge : Scalar → Scalar → Bool
  | fin a, fin b => decide (b ≤ a)
  | _, _ => false

/-- Test `std::isnan`. -/
def isNaN : Scalar → Bool
  | nan => true
  | fin _ => false

end Scalar

/-- Exact rational arithmetic is an arithmetic of `float` in the sense of `FloatArith`. -/
instance Scalar.instFloatArith : FloatArith Scalar where
  quiet_NaN := Scalar.quiet_NaN
  zero := Scalar.fin 0
  negOne := Scalar.fin (-1)
  add := Scalar.add
  sub := Scalar.sub
  mul := Scalar.mul
  neg := Scalar.neg
  lt := Scalar.lt
  ge := Scalar.ge
  isNaN := Scalar.isNaN
  isNaN_iff := by
    intro a
    cases a <;> simp [Scalar.isNaN, Scalar.quiet_NaN]
  neg_twice := by
    intro a
    cases a <;> simp [Scalar.neg]
  neg_quiet_NaN := rfl
  mul_negOne := by
    intro a
    cases a <;> simp [Scalar.mul, Scalar.neg]
  neg_mul_left := by
    intro a b
    cases a <;> cases b <;> simp [Scalar.mul, Scalar.neg]
  neg_mul_right := by
    intro a b
    cases a <;> cases b <;> simp [Scalar.mul, Scalar.neg]
  neg_add_neg := by
    intro a b
    cases a <;> cases b <;> simp [Scalar.add, Scalar.neg]
    ring
  nan_mul := by
    intro b
    cases b <;> rfl
  nan_add := by
    intro b
    cases b <;> rfl
  lt_zero_zero := by simp [Scalar.lt]
  lt_zero_asymm := by
    intro a h
    cases a with
    | nan => rfl
    | fin q =>
      simp only [Scalar.lt, decide_eq_true_eq] at h
      simp only [Scalar.lt, decide_eq_false_iff_not]
      linarith
  ge_neg_of_lt_zero := by
    intro a h
    cases a with
    | nan => simp [Scalar.lt] at h
    | fin q =>
      simp only [Scalar.lt, decide_eq_true_eq] at h
      simp only [Scalar.neg, Scalar.ge, decide_eq_true_eq]
      linarith
  ge_of_not_lt_zero := by
    intro a h hn
    cases a with
    | nan => simp [Scalar.isNaN] at hn
    | fin q =>
      simp only [Scalar.lt, decide_eq_false_iff_not] at h
      simp only [Scalar.ge, decide_eq_true_eq]
      linarith


/-- Values of `Eigen::Vector3f`. -/
structure Vector3f (F : Type) where
  x : F
  y : F
  z : F
deriving DecidableEq

namespace Vector3f

/-- The vector `Eigen::Vector3f::Constant(s)`. -/
def Constant (s : F) : Vector3f F := ⟨s, s, s⟩

/-- The vector `Eigen::Vector3f::Zero()`. -/
def Zero : Vector3f F := Constant FloatArith.zero

/-- Content of a default-constructed `Eigen::Vector3f`.  Eigen leaves it unspecified; the
placeholder is deliberately different from the undefined sentinel, so that a slot the code
never writes cannot pass for a sentinel. -/
def uninitialized : Vector3f F := Zero

/-- Operator `a - b`. -/
def sub (a b : Vector3f F) : Vector3f F :=
  ⟨FloatArith.sub a.x b.x, FloatArith.sub a.y b.y, FloatArith.sub a.z b.z⟩

/-- Method `a.dot(b)`. -/
def dot (a b : Vector3f F) : F :=
  FloatArith.add (FloatArith.add (FloatArith.mul a.x b.x) (FloatArith.mul a.y b.y))
    (FloatArith.mul a.z b.z)

/-- Compound assignment `a *= s`. -/
def mulScalar (a : Vector3f F) (s : F) : Vector3f F :=
  ⟨FloatArith.mul a.x s, FloatArith.mul a.y s, FloatArith.mul a.z s⟩

/-- Component-wise negation `-a`. -/
def neg (a : Vector3f F) : Vector3f F :=
  ⟨FloatArith.neg a.x, FloatArith.neg a.y, FloatArith.neg a.z⟩

end Vector3f

/-- The undefined sentinel `nan` of the estimation routines: all three components are
not-a-number. -/
def nanVector : Vector3f F := Vector3f.Constant FloatArith.quiet_NaN

/-- Values of `Eigen::Matrix3f`, stored by columns. -/
structure Matrix3f (F : Type) where
  col0 : Vector3f F
  col1 : Vector3f F
  col2 : Vector3f F
deriving DecidableEq

/-- Method `m.col(j)`. -/
def Matrix3f.col (m : Matrix3f F) : Nat → Vector3f F
  | 0 => m.col0
  | 1 => m.col1
  | _ => m.col2

/-! ## Collaborators that are not part of the sources -/

/-- Modelled from the spec: the plane fitter `PrincipalComponentAnalysis3D`
(`principal_component_analysis.hpp` is missing).  It is constructed from a point subset and
exposes an eigenbasis matrix; the fitter is the map from the subset to
`getEigenVectorsMatrix()`. -/
abbrev PrincipalComponentAnalysis3D (F : Type) := List (Vector3f F) → Matrix3f F

/-- Modelled from the spec: the spatial index `KDTree3D` (`kd_tree.hpp` is missing).  Each of
the three queries takes the query point and its parameters and yields the two output
arguments `neighbors` and `distances`. -/
structure KDTree3D (F : Type) where
  kNNSearch : Vector3f F → Nat → List Nat × List F
  radiusSearch : Vector3f F → F → List Nat × List F
  kNNInRadiusSearch : Vector3f F → Nat → F → List Nat × List F

/-- Modelled from the spec: the tag `KDTree3D::NeighborhoodType` (`kd_tree.hpp` is missing), a
closed choice of exactly three modes. -/
inductive NeighborhoodType where
  | KNN
  | RADIUS
  | KNN_IN_RADIUS
deriving DecidableEq

/-- Modelled from the spec: the descriptor `KDTree3D::Neighborhood` (`kd_tree.hpp` is missing),
with the three members the estimator reads. -/
structure Neighborhood (F : Type) where
  type : NeighborhoodType
  maxNumberOfNeighbors : Nat
  radius : F
deriving DecidableEq

/-- Modelled from the spec: the container `PointCloud` (`point_cloud.hpp` is missing); it owns a
point array and a normal array. -/
structure PointCloud (F : Type) where
  points : List (Vector3f F)
  normals : List (Vector3f F)
deriving DecidableEq

/-! ## The estimator -/

/-- The private members of `class NormalEstimation`.  `input_points_` aliases
`input_cloud_->points` when the estimator is built over a container. -/
structure NormalEstimation (F : Type) where
  input_cloud_ : Option (PointCloud F)
  input_points_ : List (Vector3f F)
  kd_tree_ptr_ : KDTree3D F
  kd_tree_owned_ : Bool
  view_point_ : Vector3f F

/-- One call into a collaborator. -/
inductive Event (F : Type) where
  | kNNSearch (query : Vector3f F) (k : Nat)
  | radiusSearch (query : Vector3f F) (radius_sq : F)
  | kNNInRadiusSearch (query : Vector3f F) (k : Nat) (radius_sq : F)
  | pca (neighborhood : List (Vector3f F))
deriving DecidableEq

/-- Whether an event is a query to the spatial index. -/
def Event.isQuery : Event F → Bool
  | Event.pca _ => false
  | _ => true

/-- Whether an event is an application of the plane fitter. -/
def Event.isFit : Event F → Bool
  | Event.pca _ => true
  | _ => false

/-- The local array `normals` of an estimation routine together with the calls made so far. -/
structure Run (F : Type) where
  normals : List (Vector3f F)
  trace : List (Event F)
deriving DecidableEq

namespace NormalEstimation

/-- Constructor `NormalEstimation(points)`; `build` is the constructor `KDTree3D(points)`. -/
def fromPoints (build : List (Vector3f F) → KDTree3D F) (points : List (Vector3f F)) :
    NormalEstimation F :=
  { input_cloud_ := none
    input_points_ := points
    kd_tree_ptr_ := build points
    kd_tree_owned_ := true
    view_point_ := Vector3f.Zero }

/-- Constructor `NormalEstimation(points, kd_tree)`. -/
def fromPointsWithTree (points : List (Vector3f F)) (kd_tree : KDTree3D F) : NormalEstimation F :=
  { input_cloud_ := none
    input_points_ := points
    kd_tree_ptr_ := kd_tree
    kd_tree_owned_ := false
    view_point_ := Vector3f.Zero }

/-- Constructor `NormalEstimation(cloud)`; `build` is the constructor `KDTree3D(points)`. -/
def fromCloud (build : List (Vector3f F) → KDTree3D F) (cloud : PointCloud F) :
    NormalEstimation F :=
  { input_cloud_ := some cloud
    input_points_ := cloud.points
    kd_tree_ptr_ := build cloud.points
    kd_tree_owned_ := true
    view_point_ := Vector3f.Zero }

/-- Constructor `NormalEstimation(cloud, kd_tree)`. -/
def fromCloudWithTree (cloud : PointCloud F) (kd_tree : KDTree3D F) : NormalEstimation F :=
  { input_cloud_ := some cloud
    input_points_ := cloud.points
    kd_tree_ptr_ := kd_tree
    kd_tree_owned_ := false
    view_point_ := Vector3f.Zero }

/-- Destructor: returns whether `delete kd_tree_ptr_` is executed. -/
def destroy (est : NormalEstimation F) : Bool :=
  if est.kd_tree_owned_ then true else false

/-- Accessor `getViewPoint()`. -/
def getViewPoint (est : NormalEstimation F) : Vector3f F := est.view_point_

/-- Accessor `setViewPoint(vp)`. -/
def setViewPoint (est : NormalEstimation F) (vp : Vector3f F) : NormalEstimation F :=
  { est with view_point_ := vp }

end NormalEstimation

/-- Assignment `v[i] = a` on a `std::vector`; `none` outside the bounds. -/
def writeAt (v : List (Vector3f F)) (i : Nat) (a : Vector3f F) : Option (List (Vector3f F)) :=
  if i < v.length then some (v.set i a) else none

/-- The inner loop `neighborhood[j] = (*input_points_)[neighbors[j]]` for
`j = 0 .. neighbors.size() - 1`; `none` when some neighbour index is outside the point
array. -/
def gatherNeighborhood (points : List (Vector3f F)) : List Nat → Option (List (Vector3f F))
  | [] => some []
  | j :: js =>
    match points[j]?, gatherNeighborhood points js with
    | some p, some ps => some (p :: ps)
    | _, _ => none

/-- The statements that the three loop bodies share word for word once the neighbourhood
has been collected (lines 63-70, 104-111 and 145-152 of `normal_estimation.cpp`): fit, store
column 2 in `normals[i]`, and multiply `normals[i]` by `-1.0f` when its dot product with
`view_point_ - (*input_points_)[i]` is below `0.0f`.  The subtraction, the dot product and
the comparison are those of the arithmetic of `F`: the value tested is the `float` that the
code computes, with its rounding, underflow and overflow. -/
def fitAndOrient (pca : PrincipalComponentAnalysis3D F) (est : NormalEstimation F)
    (i : Nat) (p : Vector3f F) (neighborhood : List (Vector3f F)) (st : Run F) :
    Option (Run F) := do
  let eigenVectors := pca neighborhood
  let trace := st.trace ++ [Event.pca neighborhood]
  let normals ← writeAt st.normals i (eigenVectors.col 2)
  let n ← normals[i]?
  if FloatArith.lt (n.dot (est.view_point_.sub p)) FloatArith.zero then
    let normals ← writeAt normals i (n.mulScalar FloatArith.negOne)
    some { normals := normals, trace := trace }
  else
    some { normals := normals, trace := trace }

namespace NormalEstimation

/-- Body of the parallel loop of `estimateNormalsKNN` for index `i`. -/
def estimateNormalsKNN_body (pca : PrincipalComponentAnalysis3D F) (est : NormalEstimation F)
    (num_neighbors : Nat) (st : Run F) (i : Nat) : Option (Run F) := do
  let p ← est.input_points_[i]?
  let neighbors := (est.kd_tree_ptr_.kNNSearch p num_neighbors).1
  let st := { st with trace := st.trace ++ [Event.kNNSearch p num_neighbors] }
  let neighborhood ← gatherNeighborhood est.input_points_ neighbors
  fitAndOrient pca est i p neighborhood st

/-- Method `estimateNormalsKNN(num_neighbors)`. -/
def estimateNormalsKNN (pca : PrincipalComponentAnalysis3D F) (est : NormalEstimation F)
    (num_neighbors : Nat) : Option (Run F) :=
  let normals := List.replicate est.input_points_.length Vector3f.uninitialized
  let nan := Vector3f.Constant FloatArith.quiet_NaN
  if est.input_points_.length < 3 then
    (List.range normals.length).foldlM
      (fun (st : Run F) i => do
        let normals ← writeAt st.normals i nan
        some { st with normals := normals })
      { normals := normals, trace := [] }
  else
    (List.range est.input_points_.length).foldlM
      (estimateNormalsKNN_body pca est num_neighbors) { normals := normals, trace := [] }

/-- Body of the parallel loop of `estimateNormalsRadius` for index `i`. -/
def estimateNormalsRadius_body (pca : PrincipalComponentAnalysis3D F) (est : NormalEstimation F)
    (radius_sq : F) (st : Run F) (i : Nat) : Option (Run F) := do
  let nan := Vector3f.Constant FloatArith.quiet_NaN
  let p ← est.input_points_[i]?
  let neighbors := (est.kd_tree_ptr_.radiusSearch p radius_sq).1
  let st := { st with trace := st.trace ++ [Event.radiusSearch p radius_sq] }
  if neighbors.length < 3 then
    let normals ← writeAt st.normals i nan
    some { st with normals := normals }
  else
    let neighborhood ← gatherNeighborhood est.input_points_ neighbors
    fitAndOrient pca est i p neighborhood st

/-- Method `estimateNormalsRadius(radius)`. -/
def estimateNormalsRadius (pca : PrincipalComponentAnalysis3D F) (est : NormalEstimation F)
    (radius : F) : Option (Run F) :=
  let radius_sq := FloatArith.mul radius radius
  let normals := List.replicate est.input_points_.length Vector3f.uninitialized
  (List.range est.input_points_.length).foldlM
    (estimateNormalsRadius_body pca est radius_sq) { normals := normals, trace := [] }

/-- Body of the parallel loop of `estimateNormalsKNNInRadius` for index `i`. -/
def estimateNormalsKNNInRadius_body (pca : PrincipalComponentAnalysis3D F)
    (est : NormalEstimation F) (k : Nat) (radius_sq : F) (st : Run F) (i : Nat) :
    Option (Run F) := do
  let nan := Vector3f.Constant FloatArith.quiet_NaN
  let p ← est.input_points_[i]?
  let neighbors := (est.kd_tree_ptr_.kNNInRadiusSearch p k radius_sq).1
  let st := { st with trace := st.trace ++ [Event.kNNInRadiusSearch p k radius_sq] }
  if neighbors.length < 3 then
    let normals ← writeAt st.normals i nan
    some { st with normals := normals }
  else
    let neighborhood ← gatherNeighborhood est.input_points_ neighbors
    fitAndOrient pca est i p neighborhood st

/-- Method `estimateNormalsKNNInRadius(k, radius)`. -/
def estimateNormalsKNNInRadius (pca : PrincipalComponentAnalysis3D F) (est : NormalEstimation F)
    (k : Nat) (radius : F) : Option (Run F) :=
  let radius_sq := FloatArith.mul radius radius
  let normals := List.replicate est.input_points_.length Vector3f.uninitialized
  (List.range est.input_points_.length).foldlM
    (estimateNormalsKNNInRadius_body pca est k radius_sq) { normals := normals, trace := [] }

/-- Method `estimateNormals(nh)`. -/
def estimateNormals (pca : PrincipalComponentAnalysis3D F) (est : NormalEstimation F)
    (nh : Neighborhood F) : Option (Run F) :=
  match nh.type with
  | NeighborhoodType.KNN => estimateNormalsKNN pca est nh.maxNumberOfNeighbors
  | NeighborhoodType.RADIUS => estimateNormalsRadius pca est nh.radius
  | NeighborhoodType.KNN_IN_RADIUS =>
    estimateNormalsKNNInRadius pca est nh.maxNumberOfNeighbors nh.radius

/-- Method `estimateNormalsInPlaceKNN(num_neighbors)`.  The result is the estimator after the
call, with the container it points to, and the collaborator calls that were made. -/
def estimateNormalsInPlaceKNN (pca : PrincipalComponentAnalysis3D F) (est : NormalEstimation F)
    (num_neighbors : Nat) : Option (NormalEstimation F × List (Event F)) :=
  match est.input_cloud_ with
  | none => some (est, [])
  | some cloud => do
    let r ← estimateNormalsKNN pca est num_neighbors
    some ({ est with input_cloud_ := some { cloud with normals := r.normals } }, r.trace)

/-- Method `estimateNormalsInPlaceRadius(radius)`. -/
def estimateNormalsInPlaceRadius (pca : PrincipalComponentAnalysis3D F) (est : NormalEstimation F)
    (radius : F) : Option (NormalEstimation F × List (Event F)) :=
  match est.input_cloud_ with
  | none => some (est, [])
  | some cloud => do
    let r ← estimateNormalsRadius pca est radius
    some ({ est with input_cloud_ := some { cloud with normals := r.normals } }, r.trace)

/-- Method `estimateNormalsInPlaceKNNInRadius(k, radius)`. -/
def estimateNormalsInPlaceKNNInRadius (pca : PrincipalComponentAnalysis3D F)
    (est : NormalEstimation F) (k : Nat) (radius : F) :
    Option (NormalEstimation F × List (Event F)) :=
  match est.input_cloud_ with
  | none => some (est, [])
  | some cloud => do
    let r ← estimateNormalsKNNInRadius pca est k radius
    some ({ est with input_cloud_ := some { cloud with normals := r.normals } }, r.trace)

/-- Method `estimateNormalsInPlace(nh)`. -/
def estimateNormalsInPlace (pca : PrincipalComponentAnalysis3D F) (est : NormalEstimation F)
    (nh : Neighborhood F) : Option (NormalEstimation F × List (Event F)) :=
  match est.input_cloud_ with
  | none => some (est, [])
  | some cloud => do
    let r ← estimateNormals pca est nh
    some ({ est with input_cloud_ := some { cloud with normals := r.normals } }, r.trace)

end NormalEstimation

/-! ## Notions used to state the properties -/

/-- Contract of the spatial index towards an array of `n` points: every neighbour index that
any of the three queries returns designates an element of the array. -/
def KDTree3D.InRange (tree : KDTree3D F) (n : Nat) : Prop :=
  (∀ q k, ∀ j ∈ (tree.kNNSearch q k).1, j < n) ∧
  (∀ q r, ∀ j ∈ (tree.radiusSearch q r).1, j < n) ∧
  (∀ q k r, ∀ j ∈ (tree.kNNInRadiusSearch q k r).1, j < n)

/-- The positions `[points[j] for j in L]`, in the order of `L`. -/
def positions (points : List (Vector3f F)) (L : List Nat) : List (Vector3f F) :=
  L.filterMap (fun j => points[j]?)

/-- The orientation rule in the words of the specification: the candidate `c` at point `p` is
negated when `dot(c, viewpoint - p)` is strictly negative and kept otherwise.  The dot product
is the `float` value that the code computes, `c.dot(viewpoint - p)` in the arithmetic of
`F`, not the exact real number. -/
def orient (c viewpoint p : Vector3f F) : Vector3f F :=
  if FloatArith.lt (c.dot (viewpoint.sub p)) FloatArith.zero then c.neg else c

/-- The property "every entry of the array is the undefined sentinel". -/
def AllSentinel (normals : List (Vector3f F)) : Prop :=
  ∀ n ∈ normals, n = nanVector

/-- The value that a loop body stores in slot `i` and the calls it makes when the query for
point `p` has returned `neighbors`; `guarded` tells whether the body tests
`neighbors.size() < 3`, `q` is the query event. -/
def pointOutcome (pca : PrincipalComponentAnalysis3D F) (est : NormalEstimation F)
    (guarded : Bool) (q : Event F) (p : Vector3f F) (neighbors : List Nat) :
    Option (Vector3f F × List (Event F)) :=
  if guarded = true ∧ neighbors.length < 3 then some (nanVector, [q])
  else
    match gatherNeighborhood est.input_points_ neighbors with
    | none => none
    | some nbh => some (orient ((pca nbh).col 2) est.view_point_ p, [q, Event.pca nbh])

/-- Outcome of iteration `i` of the loop of `estimateNormalsKNN`. -/
def knnOutcome (pca : PrincipalComponentAnalysis3D F) (est : NormalEstimation F) (k : Nat)
    (i : Nat) : Option (Vector3f F × List (Event F)) :=
  match est.input_points_[i]? with
  | none => none
  | some p =>
    pointOutcome pca est false (Event.kNNSearch p k) p (est.kd_tree_ptr_.kNNSearch p k).1

/-- Outcome of iteration `i` of the loop of `estimateNormalsRadius`. -/
def radiusOutcome (pca : PrincipalComponentAnalysis3D F) (est : NormalEstimation F)
    (radius_sq : F) (i : Nat) : Option (Vector3f F × List (Event F)) :=
  match est.input_points_[i]? with
  | none => none
  | some p =>
    pointOutcome pca est true (Event.radiusSearch p radius_sq) p
      (est.kd_tree_ptr_.radiusSearch p radius_sq).1

/-- Outcome of iteration `i` of the loop of `estimateNormalsKNNInRadius`. -/
def knnInRadiusOutcome (pca : PrincipalComponentAnalysis3D F) (est : NormalEstimation F) (k : Nat)
    (radius_sq : F) (i : Nat) : Option (Vector3f F × List (Event F)) :=
  match est.input_points_[i]? with
  | none => none
  | some p =>
    pointOutcome pca est true (Event.kNNInRadiusSearch p k radius_sq) p
      (est.kd_tree_ptr_.kNNInRadiusSearch p k radius_sq).1

/-- Effect of an iteration with the given outcome on the loop state. -/
def applyOutcome (st : Run F) (i : Nat) (e : Vector3f F × List (Event F)) : Run F :=
  { normals := st.normals.set i e.1, trace := st.trace ++ e.2 }

/-- Calls made by the iterations `0 .. m - 1`, in order. -/
def tracesUpTo (entry : Nat → Option (Vector3f F × List (Event F))) (m : Nat) :
    List (Event F) :=
  ((List.range m).map (fun i => match entry i with
    | some e => e.2
    | none => [])).flatten

/-- The orientation property as claimed: every entry that is not the sentinel has a
non-negative dot product with the direction from its point to the view point.  The dot
product is computed in the arithmetic of `F`, as the code computes it. -/
def Oriented (est : NormalEstimation F) (normals : List (Vector3f F)) : Prop :=
  ∀ (i : Nat) (n p : Vector3f F),
    normals[i]? = some n → est.input_points_[i]? = some p → n ≠ nanVector →
    FloatArith.ge (n.dot (est.view_point_.sub p)) FloatArith.zero = true

/-- The orientation property that the code guarantees: every entry whose dot product with
the direction from its point to the view point is a number has that product non-negative.
The dot product is computed in the arithmetic of `F`, as the code computes it. -/
def OrientedWhereComparable (est : NormalEstimation F) (normals : List (Vector3f F)) : Prop :=
  ∀ (i : Nat) (n p : Vector3f F),
    normals[i]? = some n → est.input_points_[i]? = some p →
    FloatArith.isNaN (n.dot (est.view_point_.sub p)) = false →
    FloatArith.ge (n.dot (est.view_point_.sub p)) FloatArith.zero = true

/-- The reference behaviour of an in-place method in the words of the specification: take the
outcome `result` of the value-returning method and assign the returned array to the normal
array of the container `cloud`, replacing what it held. -/
def assignReturned (est : NormalEstimation F) (cloud : PointCloud F) (result : Option (Run F)) :
    Option (NormalEstimation F × List (Event F)) :=
  result.map (fun r =>
    ({ est with input_cloud_ := some { points := cloud.points, normals := r.normals } },
      r.trace))

/-- The estimator `est` with the normal array of its container, if any, replaced by `old`. -/
def withPriorNormals (est : NormalEstimation F) (old : List (Vector3f F)) : NormalEstimation F :=
  { est with input_cloud_ := est.input_cloud_.map (fun c => { c with normals := old }) }

/-- Contract of the hybrid query of the spatial index: it returns at most `k` neighbour
indices. -/
def KDTree3D.HybridAtMostK (tree : KDTree3D F) : Prop :=
  ∀ q k r, (tree.kNNInRadiusSearch q k r).1.length ≤ k

/-- The queries among the recorded calls, in the order in which they were issued. -/
def queriesOf (trace : List (Event F)) : List (Event F) :=
  trace.filter Event.isQuery

/-- Two entries that differ at most by their sign: they are sentinel together, and the
second is the first or its exact negation. -/
def SameUpToSign (a b : Vector3f F) : Prop :=
  (a = nanVector ↔ b = nanVector) ∧ (b = a ∨ b = a.neg)

/-- Two results that differ at most by the sign of their entries: same length, and entries
of the same index are the same up to sign. -/
def SameUpToSigns (r1 r2 : Run F) : Prop :=
  r1.normals.length = r2.normals.length ∧
  ∀ (i : Nat) (n1 n2 : Vector3f F),
    r1.normals[i]? = some n1 → r2.normals[i]? = some n2 → SameUpToSign n1 n2

/-! ## Concrete data for the worked instances -/

namespace Example

/-- Vector with the given rational coordinates. -/
def vec (x y z : ℚ) : Vector3f Scalar := ⟨Scalar.fin x, Scalar.fin y, Scalar.fin z⟩

/-- Squared Euclidean distance. -/
def dist2 (a b : Vector3f Scalar) : Scalar := (a.sub b).dot (a.sub b)

/-- Squared distance from `q` to the point of index `j`. -/
def distTo (points : List (Vector3f Scalar)) (q : Vector3f Scalar) (j : Nat) : Scalar :=
  match points[j]? with
  | some p => dist2 q p
  | none => Scalar.nan

/-- Insertion of index `j` into a list of indices ordered by distance to `q`. -/
def insertByDistance (points : List (Vector3f Scalar)) (q : Vector3f Scalar) (j : Nat) :
    List Nat → List Nat
  | [] => [j]
  | h :: t =>
    if Scalar.lt (distTo points q j) (distTo points q h) then j :: h :: t
    else h :: insertByDistance points q j t

/-- All indices of the array ordered by distance to `q`. -/
def byDistance (points : List (Vector3f Scalar)) (q : Vector3f Scalar) : List Nat :=
  (List.range points.length).foldr (insertByDistance points q) []

/-- Exhaustive-search index over `points`: nearest first, radius bound strict. -/
def bruteForce (points : List (Vector3f Scalar)) : KDTree3D Scalar where
  kNNSearch q k :=
    let ns := (byDistance points q).take k
    (ns, ns.map (distTo points q))
  radiusSearch q radius_sq :=
    let ns := (byDistance points q).filter (fun j => Scalar.lt (distTo points q j) radius_sq)
    (ns, ns.map (distTo points q))
  kNNInRadiusSearch q k radius_sq :=
    let ns := ((byDistance points q).filter
      (fun j => Scalar.lt (distTo points q j) radius_sq)).take k
    (ns, ns.map (distTo points q))

/-- Fitter for neighbourhoods contained in the plane `z = 0`: the eigenbasis is the standard
basis, whose last vector is the direction of least (zero) variance. -/
def planeFitter : PrincipalComponentAnalysis3D Scalar :=
  fun _ => ⟨vec 1 0 0, vec 0 1 0, vec 0 0 1⟩

/-- The coplanar square of the specification. -/
def square : List (Vector3f Scalar) := [vec 0 0 0, vec 1 0 0, vec 0 1 0, vec 1 1 0]

/-- Three collinear points with unit spacing. -/
def collinear : List (Vector3f Scalar) := [vec 0 0 0, vec 1 0 0, vec 2 0 0]

/-- Estimator over the square with its own index and the view point `(0, 0, 1)`. -/
def squareEstimator : NormalEstimation Scalar :=
  (NormalEstimation.fromPoints bruteForce square).setViewPoint (vec 0 0 1)

/-- Estimator over the collinear points with its own index. -/
def collinearEstimator : NormalEstimation Scalar :=
  NormalEstimation.fromPoints bruteForce collinear

/-- Estimator over the square whose view point has a not-a-number coordinate. -/
def nanViewEstimator : NormalEstimation Scalar :=
  (NormalEstimation.fromPoints bruteForce square).setViewPoint
    ⟨Scalar.nan, Scalar.fin 0, Scalar.fin 1⟩

/-- Estimator over two points with its own index. -/
def pairEstimator : NormalEstimation Scalar :=
  NormalEstimation.fromPoints bruteForce [vec 0 0 0, vec 1 0 0]

/-- Container holding the square and a stale normal array of another length. -/
def squareCloud : PointCloud Scalar := { points := square, normals := [vec 1 0 0] }

/-- Estimator over the container with its own index and the view point `(0, 0, 1)`. -/
def cloudEstimator : NormalEstimation Scalar :=
  (NormalEstimation.fromCloud bruteForce squareCloud).setViewPoint (vec 0 0 1)

/-- Index that answers every query with the indices `0`, `1` and `7`, whatever the point
array. -/
def strayTree : KDTree3D Scalar where
  kNNSearch _ _ := ([0, 1, 7], [])
  radiusSearch _ _ := ([0, 1, 7], [])
  kNNInRadiusSearch _ _ _ := ([0, 1, 7], [])

/-- Estimator over the square (four points) with the index `strayTree`. -/
def strayEstimator : NormalEstimation Scalar :=
  NormalEstimation.fromPointsWithTree square strayTree

/-! ### An arithmetic with the overflow of binary32

The worked instances above use exact arithmetic.  The arithmetic below differs from it in one
respect: a result whose magnitude reaches the overflow threshold of binary32 becomes
infinite, and infinities follow the IEEE-754 rules.  It does not round the results that stay
below the threshold; on the data used with it every such result is a binary32 value, so that
binary32 arithmetic gives the same values. -/

/-- Overflow threshold of binary32 in round-to-nearest, `2^128 - 2^103`: a result of at least
this magnitude is rounded to infinity. -/
def overflowThreshold : ℚ := 340282356779733661637539395458142568448

/-- A rational number, an infinity with its sign, or not-a-number. -/
inductive Extended where
  | nan : Extended
  | inf (negative : Bool) : Extended
  | fin (q : ℚ) : Extended
deriving DecidableEq

/-- The finite values are those strictly below the overflow threshold in magnitude. -/
def Extended.InRange : Extended → Prop
  | Extended.fin q => -overflowThreshold < q ∧ q < overflowThreshold
  | _ => True

/-- Values of the arithmetic with overflow. -/
def Ranged : Type := { v : Extended // v.InRange }

namespace Ranged

/-- Equality of values is decidable. -/
instance instDecidableEq : DecidableEq Ranged :=
  fun a b => decidable_of_iff (a.1 = b.1) Subtype.ext_iff.symm

/-- Not-a-number. -/
def nan : Ranged := ⟨Extended.nan, trivial⟩

/-- The infinity of the given sign. -/
def inf (negative : Bool) : Ranged := ⟨Extended.inf negative, trivial⟩

/-- The value of an exact result `q`: infinite from the overflow threshold on, `q` itself
below it. -/
def ofRat (q : ℚ) : Ranged :=
  if h1 : overflowThreshold ≤ q then inf false
  else if h2 : q ≤ -overflowThreshold then inf true
  else ⟨Extended.fin q, ⟨not_le.mp h2, not_le.mp h1⟩⟩

/-- Unary minus. -/
def neg : Ranged → Ranged
  | ⟨Extended.nan, _⟩ => nan
  | ⟨Extended.inf s, _⟩ => inf (!s)
  | ⟨Extended.fin q, h⟩ => ⟨Extended.fin (-q), ⟨by linarith [h.2], by linarith [h.1]⟩⟩

/-- Operator `+`. -/
def add : Ranged → Ranged → Ranged
  | ⟨Extended.fin a, _⟩, ⟨Extended.fin b, _⟩ => ofRat (a + b)
  | ⟨Extended.fin _, _⟩, ⟨Extended.inf t, _⟩ => inf t
  | ⟨Extended.inf s, _⟩, ⟨Extended.fin _, _⟩ => inf s
  | ⟨Extended.inf s, _⟩, ⟨Extended.inf t, _⟩ => if s = t then inf s else nan
  | _, _ => nan

/-- Operator `-`. -/
def sub (a b : Ranged) : Ranged := add a (neg b)

/-- Operator `*`. -/
def mul : Ranged → Ranged → Ranged
  | ⟨Extended.fin a, _⟩, ⟨Extended.fin b, _⟩ => ofRat (a * b)
  | ⟨Extended.fin a, _⟩, ⟨Extended.inf t, _⟩ =>
    if a = 0 then nan else inf (xor (decide (a < 0)) t)
  | ⟨Extended.inf s, _⟩, ⟨Extended.fin b, _⟩ =>
    if b = 0 then nan else inf (xor s (decide (b < 0)))
  | ⟨Extended.inf s, _⟩, ⟨Extended.inf t, _⟩ => inf (xor s t)
  | _, _ => nan

/-- Operator `<`. -/
def lt : Ranged → Ranged → Bool
  | ⟨Extended.fin a, _⟩, ⟨Extended.fin b, _⟩ => decide (a < b)
  | ⟨Extended.inf true, _⟩, ⟨Extended.fin _, _⟩ => true
  | ⟨Extended.inf true, _⟩, ⟨Extended.inf false, _⟩ => true
  | ⟨Extended.fin _, _⟩, ⟨Extended.inf false, _⟩ => true
  | _, _ => false

/-- Operator `>=`. -/
def ge : Ranged → Ranged → Bool
  | ⟨Extended.fin a, _⟩, ⟨Extended.fin b, _⟩ => decide (b ≤ a)
  | ⟨Extended.inf false, _⟩, ⟨Extended.fin _, _⟩ => true
  | ⟨Extended.inf false, _⟩, ⟨Extended.inf _, _⟩ => true
  | ⟨Extended.fin _, _⟩, ⟨Extended.inf true, _⟩ => true
  | ⟨Extended.inf true, _⟩, ⟨Extended.inf true, _⟩ => true
  | _, _ => false

/-- Test `std::isnan`. -/
def isNaN : Ranged → Bool
  | ⟨Extended.nan, _⟩ => true
  | _ => false

end Ranged

/-- The arithmetic with overflow is an arithmetic of `float` in the sense of `FloatArith`. -/
instance Ranged.instFloatArith : FloatArith Ranged where
  quiet_NaN := Ranged.nan
  zero := ⟨Extended.fin 0, by norm_num [Extended.InRange, overflowThreshold]⟩
  negOne := ⟨Extended.fin (-1), by norm_num [Extended.InRange, overflowThreshold]⟩
  add := Ranged.add
  sub := Ranged.sub
  mul := Ranged.mul
  neg := Ranged.neg
  lt := Ranged.lt
  ge := Ranged.ge
  isNaN := Ranged.isNaN
  isNaN_iff := by
    rintro ⟨a, ha⟩
    cases a with
    | nan => simp [Ranged.isNaN, Ranged.nan]
    | inf s =>
      simp only [Ranged.isNaN, Bool.false_eq_true, false_iff]
      intro h
      cases congrArg Subtype.val h
    | fin q =>
      simp only [Ranged.isNaN, Bool.false_eq_true, false_iff]
      intro h
      cases congrArg Subtype.val h
  neg_twice := by
    rintro ⟨a, ha⟩
    cases a <;> simp [Ranged.neg, Ranged.nan, Ranged.inf]
  neg_quiet_NaN := rfl
  mul_negOne := by
    rintro ⟨a, ha⟩
    cases a with
    | nan => rfl
    | inf s => simp [Ranged.mul, Ranged.neg, Ranged.inf]
    | fin q =>
      have h1 : ¬ overflowThreshold ≤ -q := by linarith [ha.1]
      have h2 : ¬ -q ≤ -overflowThreshold := by linarith [ha.2]
      simp [Ranged.mul, Ranged.neg, Ranged.ofRat, h1, h2]
  neg_mul_left := by
    have hneg : ∀ q, Ranged.ofRat (-q) = (Ranged.ofRat q).neg := by
      intro q
      unfold Ranged.ofRat
      by_cases h1 : overflowThreshold ≤ q
      · have h2 : ¬ overflowThreshold ≤ -q := by
          have : (0 : ℚ) < overflowThreshold := by norm_num [overflowThreshold]
          linarith
        have h3 : -q ≤ -overflowThreshold := by linarith
        simp [h1, h2, h3, Ranged.neg, Ranged.inf]
      · by_cases h2 : q ≤ -overflowThreshold
        · have h3 : overflowThreshold ≤ -q := by linarith
          simp [h1, h2, h3, Ranged.neg, Ranged.inf]
        · have h3 : ¬ overflowThreshold ≤ -q := by linarith
          have h4 : ¬ -q ≤ -overflowThreshold := by linarith
          simp [h1, h2, h3, h4, Ranged.neg]
    rintro ⟨a, ha⟩ ⟨b, hb⟩
    cases a with
    | nan => cases b <;> rfl
    | inf s =>
      cases b with
      | nan => rfl
      | inf t => cases s <;> cases t <;> rfl
      | fin q =>
        by_cases hq : q = 0
        · simp [Ranged.mul, Ranged.neg, Ranged.inf, Ranged.nan, hq]
        · cases s <;> by_cases hlt : q < 0 <;>
            simp [Ranged.mul, Ranged.neg, Ranged.inf, hq, hlt]
    | fin p =>
      cases b with
      | nan => rfl
      | inf t =>
        by_cases hp : p = 0
        · simp [Ranged.mul, Ranged.neg, Ranged.inf, Ranged.nan, hp]
        · have hlt : (-p < 0) = ¬ (p < 0) := by
            apply propext
            constructor
            · intro h1 h2
              linarith
            · intro h1
              have : p ≠ 0 := hp
              have h3 : 0 ≤ p := not_lt.mp h1
              have h4 : 0 < p := lt_of_le_of_ne h3 (Ne.symm this)
              linarith
          by_cases hlt2 : p < 0 <;> cases t <;>
            simp [Ranged.mul, Ranged.neg, Ranged.inf, hp, hlt, hlt2]
      | fin q =>
        change Ranged.ofRat (-p * q) = (Ranged.ofRat (p * q)).neg
        rw [neg_mul, hneg]
  neg_mul_right := by
    have hneg : ∀ q, Ranged.ofRat (-q) = (Ranged.ofRat q).neg := by
      intro q
      unfold Ranged.ofRat
      by_cases h1 : overflowThreshold ≤ q
      · have h2 : ¬ overflowThreshold ≤ -q := by
          have : (0 : ℚ) < overflowThreshold := by norm_num [overflowThreshold]
          linarith
        have h3 : -q ≤ -overflowThreshold := by linarith
        simp [h1, h2, h3, Ranged.neg, Ranged.inf]
      · by_cases h2 : q ≤ -overflowThreshold
        · have h3 : overflowThreshold ≤ -q := by linarith
          simp [h1, h2, h3, Ranged.neg, Ranged.inf]
        · have h3 : ¬ overflowThreshold ≤ -q := by linarith
          have h4 : ¬ -q ≤ -overflowThreshold := by linarith
          simp [h1, h2, h3, h4, Ranged.neg]
    rintro ⟨a, ha⟩ ⟨b, hb⟩
    cases b with
    | nan => cases a <;> rfl
    | inf t =>
      cases a with
      | nan => rfl
      | inf s => cases s <;> cases t <;> rfl
      | fin p =>
        by_cases hp : p = 0
        · simp [Ranged.mul, Ranged.neg, Ranged.inf, Ranged.nan, hp]
        · cases t <;> by_cases hlt : p < 0 <;>
            simp [Ranged.mul, Ranged.neg, Ranged.inf, hp, hlt]
    | fin q =>
      cases a with
      | nan => rfl
      | inf s =>
        by_cases hq : q = 0
        · simp [Ranged.mul, Ranged.neg, Ranged.inf, Ranged.nan, hq]
        · have hlt : (-q < 0) = ¬ (q < 0) := by
            apply propext
            constructor
            · intro h1 h2
              linarith
            · intro h1
              have h3 : 0 ≤ q := not_lt.mp h1
              have h4 : 0 < q := lt_of_le_of_ne h3 (Ne.symm hq)
              linarith
          by_cases hlt2 : q < 0 <;> cases s <;>
            simp [Ranged.mul, Ranged.neg, Ranged.inf, hq, hlt, hlt2]
      | fin p =>
        change Ranged.ofRat (p * -q) = (Ranged.ofRat (p * q)).neg
        rw [mul_neg, hneg]
  neg_add_neg := by
    have hneg : ∀ q, Ranged.ofRat (-q) = (Ranged.ofRat q).neg := by
      intro q
      unfold Ranged.ofRat
      by_cases h1 : overflowThreshold ≤ q
      · have h2 : ¬ overflowThreshold ≤ -q := by
          have : (0 : ℚ) < overflowThreshold := by norm_num [overflowThreshold]
          linarith
        have h3 : -q ≤ -overflowThreshold := by linarith
        simp [h1, h2, h3, Ranged.neg, Ranged.inf]
      · by_cases h2 : q ≤ -overflowThreshold
        · have h3 : overflowThreshold ≤ -q := by linarith
          simp [h1, h2, h3, Ranged.neg, Ranged.inf]
        · have h3 : ¬ overflowThreshold ≤ -q := by linarith
          have h4 : ¬ -q ≤ -overflowThreshold := by linarith
          simp [h1, h2, h3, h4, Ranged.neg]
    rintro ⟨a, ha⟩ ⟨b, hb⟩
    cases a with
    | nan => cases b <;> rfl
    | inf s =>
      cases b with
      | nan => rfl
      | inf t => cases s <;> cases t <;> rfl
      | fin q => rfl
    | fin p =>
      cases b with
      | nan => rfl
      | inf t => rfl
      | fin q =>
        change Ranged.ofRat (-p + -q) = (Ranged.ofRat (p + q)).neg
        rw [← neg_add, hneg]
  nan_mul := by
    rintro ⟨b, hb⟩
    cases b <;> rfl
  nan_add := by
    rintro ⟨b, hb⟩
    cases b <;> rfl
  lt_zero_zero := by simp [Ranged.lt]
  lt_zero_asymm := by
    rintro ⟨a, ha⟩ h
    cases a with
    | nan => rfl
    | inf s => cases s <;> simp_all [Ranged.lt]
    | fin q =>
      simp only [Ranged.lt, decide_eq_true_eq] at h
      simp only [Ranged.lt, decide_eq_false_iff_not]
      linarith
  ge_neg_of_lt_zero := by
    rintro ⟨a, ha⟩ h
    cases a with
    | nan => simp [Ranged.lt] at h
    | inf s => cases s <;> simp_all [Ranged.lt, Ranged.ge, Ranged.neg, Ranged.inf]
    | fin q =>
      simp only [Ranged.lt, decide_eq_true_eq] at h
      simp only [Ranged.neg, Ranged.ge, decide_eq_true_eq]
      linarith
  ge_of_not_lt_zero := by
    rintro ⟨a, ha⟩ h hn
    cases a with
    | nan => simp [Ranged.isNaN] at hn
    | inf s => cases s <;> simp_all [Ranged.lt, Ranged.ge]
    | fin q =>
      simp only [Ranged.lt, decide_eq_false_iff_not] at h
      simp only [Ranged.ge, decide_eq_true_eq]
      linarith

/-- The finite value of a scalar of the arithmetic with overflow, if it has one. -/
def Ranged.toRat? : Ranged → Option ℚ
  | ⟨Extended.fin q, _⟩ => some q
  | _ => none

/-- Vector of the arithmetic with overflow with the given rational coordinates. -/
def rvec (x y z : ℚ) : Vector3f Ranged := ⟨Ranged.ofRat x, Ranged.ofRat y, Ranged.ofRat z⟩

/-- The exact dot product `c . (v - p)` of three vectors with finite coordinates, computed
in the rational numbers. -/
def exactDot (c v p : Vector3f Ranged) : Option ℚ := do
  let cx ← c.x.toRat?
  let cy ← c.y.toRat?
  let cz ← c.z.toRat?
  let vx ← v.x.toRat?
  let vy ← v.y.toRat?
  let vz ← v.z.toRat?
  let px ← p.x.toRat?
  let py ← p.y.toRat?
  let pz ← p.z.toRat?
  some (cx * (vx - px) + cy * (vy - py) + cz * (vz - pz))

/-- Three points of the plane `z = 0`; the first lies at `-2^127` on the first axis. -/
def farPoints : List (Vector3f Ranged) := [rvec (-(2 ^ 127)) 0 0, rvec 0 1 0, rvec 1 0 0]

/-- Index over three points: a nearest-neighbour query returns the first `k` of them, the
other queries return all three. -/
def allThreeTree : KDTree3D Ranged where
  kNNSearch _ k := ([0, 1, 2].take k, [])
  radiusSearch _ _ := ([0, 1, 2], [])
  kNNInRadiusSearch _ k _ := ([0, 1, 2].take k, [])

/-- Fitter for neighbourhoods contained in the plane `z = 0`, in the arithmetic with
overflow. -/
def rangedPlaneFitter : PrincipalComponentAnalysis3D Ranged :=
  fun _ => ⟨rvec 1 0 0, rvec 0 1 0, rvec 0 0 1⟩

/-- Estimator over `farPoints` with the index `allThreeTree`. -/
def farEstimator : NormalEstimation Ranged :=
  NormalEstimation.fromPointsWithTree farPoints allThreeTree

end Example

/-! ## Auxiliary lemmas -/

theorem Vector3f.mulScalar_neg_one (v : Vector3f F) :
    v.mulScalar FloatArith.negOne = v.neg := by
  simp [Vector3f.mulScalar, Vector3f.neg, FloatArith.mul_negOne]

theorem fitAndOrient_eq (pca : PrincipalComponentAnalysis3D F) (est : NormalEstimation F)
    (i : Nat) (p : Vector3f F) (nbh : List (Vector3f F)) (st : Run F) (hi : i < st.normals.length) :
    fitAndOrient pca est i p nbh st =
      some (applyOutcome st i (orient ((pca nbh).col 2) est.view_point_ p, [Event.pca nbh])) := by
  simp only [fitAndOrient, writeAt, hi, applyOutcome, orient, if_true, Option.bind_eq_bind,
    Option.some_bind, List.getElem?_set_self hi, List.length_set]
  split <;> simp [Vector3f.mulScalar_neg_one]

theorem knn_body_eq (pca : PrincipalComponentAnalysis3D F) (est : NormalEstimation F) (k : Nat)
    (st : Run F) (i : Nat) (hi : i < st.normals.length)
    (hn : st.normals.length = est.input_points_.length) :
    NormalEstimation.estimateNormalsKNN_body pca est k st i =
      (knnOutcome pca est k i).map (applyOutcome st i) := by
  have hp : est.input_points_[i]? = some est.input_points_[i] :=
    List.getElem?_eq_getElem (hn ▸ hi)
  simp only [NormalEstimation.estimateNormalsKNN_body, knnOutcome, hp, Option.bind_eq_bind,
    Option.some_bind, pointOutcome]
  cases hg : gatherNeighborhood est.input_points_
      (est.kd_tree_ptr_.kNNSearch est.input_points_[i] k).1 with
  | none => simp
  | some nbh =>
    simp [fitAndOrient_eq, hi, applyOutcome]

theorem radius_body_eq (pca : PrincipalComponentAnalysis3D F) (est : NormalEstimation F)
    (radius_sq : F) (st : Run F) (i : Nat) (hi : i < st.normals.length)
    (hn : st.normals.length = est.input_points_.length) :
    NormalEstimation.estimateNormalsRadius_body pca est radius_sq st i =
      (radiusOutcome pca est radius_sq i).map (applyOutcome st i) := by
  have hp : est.input_points_[i]? = some est.input_points_[i] :=
    List.getElem?_eq_getElem (hn ▸ hi)
  simp only [NormalEstimation.estimateNormalsRadius_body, radiusOutcome, hp,
    Option.bind_eq_bind, Option.some_bind, pointOutcome]
  by_cases hlt : (est.kd_tree_ptr_.radiusSearch est.input_points_[i] radius_sq).1.length < 3
  · simp [hlt, writeAt, hi, applyOutcome, nanVector]
  · cases hg : gatherNeighborhood est.input_points_
        (est.kd_tree_ptr_.radiusSearch est.input_points_[i] radius_sq).1 with
    | none => simp [hlt]
    | some nbh => simp [hlt, fitAndOrient_eq, hi, applyOutcome]

theorem knnInRadius_body_eq (pca : PrincipalComponentAnalysis3D F) (est : NormalEstimation F)
    (k : Nat) (radius_sq : F) (st : Run F) (i : Nat) (hi : i < st.normals.length)
    (hn : st.normals.length = est.input_points_.length) :
    NormalEstimation.estimateNormalsKNNInRadius_body pca est k radius_sq st i =
      (knnInRadiusOutcome pca est k radius_sq i).map (applyOutcome st i) := by
  have hp : est.input_points_[i]? = some est.input_points_[i] :=
    List.getElem?_eq_getElem (hn ▸ hi)
  simp only [NormalEstimation.estimateNormalsKNNInRadius_body, knnInRadiusOutcome, hp,
    Option.bind_eq_bind, Option.some_bind, pointOutcome]
  by_cases hlt :
      (est.kd_tree_ptr_.kNNInRadiusSearch est.input_points_[i] k radius_sq).1.length < 3
  · simp [hlt, writeAt, hi, applyOutcome, nanVector]
  · cases hg : gatherNeighborhood est.input_points_
        (est.kd_tree_ptr_.kNNInRadiusSearch est.input_points_[i] k radius_sq).1 with
    | none => simp [hlt]
    | some nbh => simp [hlt, fitAndOrient_eq, hi, applyOutcome]

theorem tracesUpTo_succ (entry : Nat → Option (Vector3f F × List (Event F))) (m : Nat) :
    tracesUpTo entry (m + 1) = tracesUpTo entry m ++ (match entry m with
      | some e => e.2
      | none => []) := by
  simp [tracesUpTo, List.range_succ]

/-- A loop over `0 .. m - 1` whose iteration `i` applies the outcome `entry i` to the state:
when it completes, slot `i < m` holds the value of `entry i`, the other slots are untouched,
the length is unchanged and the trace is extended by the calls of the iterations. -/
theorem foldlM_range_spec (step : Run F → Nat → Option (Run F))
    (entry : Nat → Option (Vector3f F × List (Event F))) (n : Nat)
    (hstep : ∀ st i, i < n → st.normals.length = n →
      step st i = (entry i).map (applyOutcome st i))
    (init : Run F) (hinit : init.normals.length = n) :
    ∀ m, m ≤ n → ∀ r, (List.range m).foldlM step init = some r →
      r.normals.length = n ∧
      (∀ i, i < m → ∃ e, entry i = some e ∧ r.normals[i]? = some e.1) ∧
      (∀ i, m ≤ i → r.normals[i]? = init.normals[i]?) ∧
      r.trace = init.trace ++ tracesUpTo entry m := by
  intro m
  induction m with
  | zero =>
    intro _ r hr
    simp only [List.range_zero, List.foldlM_nil] at hr
    cases hr
    simp [hinit, tracesUpTo]
  | succ m ih =>
    intro hm r hr
    rw [List.range_succ, List.foldlM_append] at hr
    cases hmid : (List.range m).foldlM step init with
    | none => simp [hmid] at hr
    | some mid =>
      obtain ⟨hlen, hlow, hhigh, htr⟩ := ih (Nat.le_of_succ_le hm) mid hmid
      simp only [hmid, Option.bind_eq_bind, Option.some_bind, List.foldlM_cons,
        List.foldlM_nil, hstep mid m hm hlen] at hr
      cases he : entry m with
      | none => simp [he] at hr
      | some e =>
        simp only [he, Option.map_some', Option.some_bind, Option.pure_def,
          Option.some.injEq] at hr
        subst hr
        have hmlt : m < mid.normals.length := by omega
        refine ⟨by simp [applyOutcome, hlen], ?_, ?_, ?_⟩
        · intro i hi
          by_cases him : i = m
          · subst him
            exact ⟨e, he, by simp [applyOutcome, List.getElem?_set_self hmlt]⟩
          · obtain ⟨e', he', hget⟩ := hlow i (by omega)
            refine ⟨e', he', ?_⟩
            simp only [applyOutcome]
            rw [List.getElem?_set_ne (by omega)]
            exact hget
        · intro i hi
          simp only [applyOutcome]
          rw [List.getElem?_set_ne (by omega)]
          exact hhigh i (by omega)
        · simp [applyOutcome, htr, tracesUpTo_succ, he]

/-- A loop as in `foldlM_range_spec` completes when every iteration has an outcome. -/
theorem foldlM_range_isSome (step : Run F → Nat → Option (Run F))
    (entry : Nat → Option (Vector3f F × List (Event F))) (n : Nat)
    (hstep : ∀ st i, i < n → st.normals.length = n →
      step st i = (entry i).map (applyOutcome st i))
    (init : Run F) (hinit : init.normals.length = n) :
    ∀ m, m ≤ n → (∀ i, i < m → (entry i).isSome = true) →
      ((List.range m).foldlM step init).isSome = true := by
  intro m
  induction m with
  | zero => intro _ _; simp
  | succ m ih =>
    intro hm hall
    have hprev := ih (Nat.le_of_succ_le hm) (fun i hi => hall i (by omega))
    obtain ⟨mid, hmid⟩ := Option.isSome_iff_exists.mp hprev
    obtain ⟨hlen, -⟩ := foldlM_range_spec step entry n hstep init hinit m
      (Nat.le_of_succ_le hm) mid hmid
    obtain ⟨e, he⟩ := Option.isSome_iff_exists.mp (hall m (by omega))
    rw [List.range_succ, List.foldlM_append]
    simp [hmid, hstep mid m hm hlen, he]

theorem gatherNeighborhood_eq_positions (points : List (Vector3f F)) (L : List Nat)
    (nbh : List (Vector3f F)) (h : gatherNeighborhood points L = some nbh) :
    nbh = positions points L := by
  induction L generalizing nbh with
  | nil => simp [gatherNeighborhood] at h; simp [positions, h]
  | cons j js ih =>
    simp only [gatherNeighborhood] at h
    cases hj : points[j]? with
    | none => simp [hj] at h
    | some p =>
      cases hjs : gatherNeighborhood points js with
      | none => simp [hj, hjs] at h
      | some ps =>
        simp only [hj, hjs, Option.some.injEq] at h
        subst h
        have := ih ps hjs
        simp only [positions] at this
        simp [positions, List.filterMap_cons, hj, this]

theorem gatherNeighborhood_of_inRange (points : List (Vector3f F)) (L : List Nat)
    (h : ∀ j ∈ L, j < points.length) :
    gatherNeighborhood points L = some (positions points L) := by
  induction L with
  | nil => simp [gatherNeighborhood, positions]
  | cons j js ih =>
    have hlt : j < points.length := h j (List.mem_cons_self j js)
    have hj : points[j]? = some points[j] := List.getElem?_eq_getElem hlt
    have hjs := ih (fun t ht => h t (List.mem_cons_of_mem j ht))
    simp only [positions] at hjs
    simp [gatherNeighborhood, hj, hjs, positions, List.filterMap_cons]

theorem pointOutcome_isSome_of_inRange (pca : PrincipalComponentAnalysis3D F)
    (est : NormalEstimation F) (guarded : Bool) (q : Event F) (p : Vector3f F) (L : List Nat)
    (h : ∀ j ∈ L, j < est.input_points_.length) :
    (pointOutcome pca est guarded q p L).isSome = true := by
  unfold pointOutcome
  split
  · rfl
  · simp [gatherNeighborhood_of_inRange est.input_points_ L h]

theorem knnOutcome_isSome (pca : PrincipalComponentAnalysis3D F) (est : NormalEstimation F)
    (k : Nat) (hr : est.kd_tree_ptr_.InRange est.input_points_.length) (i : Nat)
    (hi : i < est.input_points_.length) : (knnOutcome pca est k i).isSome = true := by
  simp only [knnOutcome, List.getElem?_eq_getElem hi]
  exact pointOutcome_isSome_of_inRange pca est _ _ _ _ (hr.1 _ _)

theorem radiusOutcome_isSome (pca : PrincipalComponentAnalysis3D F) (est : NormalEstimation F)
    (radius_sq : F) (hr : est.kd_tree_ptr_.InRange est.input_points_.length) (i : Nat)
    (hi : i < est.input_points_.length) :
    (radiusOutcome pca est radius_sq i).isSome = true := by
  simp only [radiusOutcome, List.getElem?_eq_getElem hi]
  exact pointOutcome_isSome_of_inRange pca est _ _ _ _ (hr.2.1 _ _)

theorem knnInRadiusOutcome_isSome (pca : PrincipalComponentAnalysis3D F)
    (est : NormalEstimation F) (k : Nat) (radius_sq : F)
    (hr : est.kd_tree_ptr_.InRange est.input_points_.length) (i : Nat)
    (hi : i < est.input_points_.length) :
    (knnInRadiusOutcome pca est k radius_sq i).isSome = true := by
  simp only [knnInRadiusOutcome, List.getElem?_eq_getElem hi]
  exact pointOutcome_isSome_of_inRange pca est _ _ _ _ (hr.2.2 _ _ _)

/-- With fewer than three points `estimateNormalsKNN` fills the array with the sentinel and
calls no collaborator. -/
theorem knn_small (pca : PrincipalComponentAnalysis3D F) (est : NormalEstimation F) (k : Nat)
    (h : est.input_points_.length < 3) :
    NormalEstimation.estimateNormalsKNN pca est k =
      some { normals := List.replicate est.input_points_.length nanVector, trace := [] } := by
  have h3 : est.input_points_.length = 0 ∨ est.input_points_.length = 1 ∨
      est.input_points_.length = 2 := by omega
  rcases h3 with h0 | h0 | h0 <;>
    simp [NormalEstimation.estimateNormalsKNN, h0, List.range_succ, writeAt, List.replicate,
      nanVector]

/-- Completed runs of `estimateNormalsKNN` on three points or more. -/
theorem knn_large (pca : PrincipalComponentAnalysis3D F) (est : NormalEstimation F) (k : Nat)
    (h : 3 ≤ est.input_points_.length) (r : Run F)
    (hr : NormalEstimation.estimateNormalsKNN pca est k = some r) :
    r.normals.length = est.input_points_.length ∧
    (∀ i, i < est.input_points_.length →
      ∃ e, knnOutcome pca est k i = some e ∧ r.normals[i]? = some e.1) ∧
    r.trace = tracesUpTo (knnOutcome pca est k) est.input_points_.length := by
  have hn : ¬ est.input_points_.length < 3 := by omega
  simp only [NormalEstimation.estimateNormalsKNN, hn, if_false] at hr
  obtain ⟨h1, h2, -, h4⟩ := foldlM_range_spec _ (knnOutcome pca est k) est.input_points_.length
    (fun st i hi hlen => knn_body_eq pca est k st i (hlen ▸ hi) hlen) _ (by simp) _
    (Nat.le_refl _) r hr
  exact ⟨h1, h2, by simpa using h4⟩

/-- Completed runs of `estimateNormalsRadius`. -/
theorem radius_run (pca : PrincipalComponentAnalysis3D F) (est : NormalEstimation F)
    (radius : F) (r : Run F)
    (hr : NormalEstimation.estimateNormalsRadius pca est radius = some r) :
    r.normals.length = est.input_points_.length ∧
    (∀ i, i < est.input_points_.length →
      ∃ e, radiusOutcome pca est (FloatArith.mul radius radius) i = some e ∧
        r.normals[i]? = some e.1) ∧
    r.trace = tracesUpTo (radiusOutcome pca est (FloatArith.mul radius radius))
      est.input_points_.length := by
  simp only [NormalEstimation.estimateNormalsRadius] at hr
  obtain ⟨h1, h2, -, h4⟩ := foldlM_range_spec _
    (radiusOutcome pca est (FloatArith.mul radius radius)) est.input_points_.length
    (fun st i hi hlen => radius_body_eq pca est _ st i (hlen ▸ hi) hlen) _ (by simp) _
    (Nat.le_refl _) r hr
  exact ⟨h1, h2, by simpa using h4⟩

/-- Completed runs of `estimateNormalsKNNInRadius`. -/
theorem knnInRadius_run (pca : PrincipalComponentAnalysis3D F) (est : NormalEstimation F)
    (k : Nat) (radius : F) (r : Run F)
    (hr : NormalEstimation.estimateNormalsKNNInRadius pca est k radius = some r) :
    r.normals.length = est.input_points_.length ∧
    (∀ i, i < est.input_points_.length →
      ∃ e, knnInRadiusOutcome pca est k (FloatArith.mul radius radius) i = some e ∧
        r.normals[i]? = some e.1) ∧
    r.trace = tracesUpTo (knnInRadiusOutcome pca est k (FloatArith.mul radius radius))
      est.input_points_.length := by
  simp only [NormalEstimation.estimateNormalsKNNInRadius] at hr
  obtain ⟨h1, h2, -, h4⟩ := foldlM_range_spec _
    (knnInRadiusOutcome pca est k (FloatArith.mul radius radius)) est.input_points_.length
    (fun st i hi hlen => knnInRadius_body_eq pca est k _ st i (hlen ▸ hi) hlen) _ (by simp) _
    (Nat.le_refl _) r hr
  exact ⟨h1, h2, by simpa using h4⟩

theorem knn_isSome (pca : PrincipalComponentAnalysis3D F) (est : NormalEstimation F) (k : Nat)
    (hr : est.kd_tree_ptr_.InRange est.input_points_.length) :
    (NormalEstimation.estimateNormalsKNN pca est k).isSome = true := by
  by_cases h : est.input_points_.length < 3
  · simp [knn_small pca est k h]
  · simp only [NormalEstimation.estimateNormalsKNN, h, if_false]
    exact foldlM_range_isSome _ (knnOutcome pca est k) est.input_points_.length
      (fun st i hi hlen => knn_body_eq pca est k st i (hlen ▸ hi) hlen) _ (by simp) _
      (Nat.le_refl _) (knnOutcome_isSome pca est k hr)

theorem radius_isSome (pca : PrincipalComponentAnalysis3D F) (est : NormalEstimation F)
    (radius : F) (hr : est.kd_tree_ptr_.InRange est.input_points_.length) :
    (NormalEstimation.estimateNormalsRadius pca est radius).isSome = true := by
  simp only [NormalEstimation.estimateNormalsRadius]
  exact foldlM_range_isSome _ (radiusOutcome pca est (FloatArith.mul radius radius))
    est.input_points_.length
    (fun st i hi hlen => radius_body_eq pca est _ st i (hlen ▸ hi) hlen) _ (by simp) _
    (Nat.le_refl _) (radiusOutcome_isSome pca est _ hr)

theorem knnInRadius_isSome (pca : PrincipalComponentAnalysis3D F) (est : NormalEstimation F)
    (k : Nat) (radius : F) (hr : est.kd_tree_ptr_.InRange est.input_points_.length) :
    (NormalEstimation.estimateNormalsKNNInRadius pca est k radius).isSome = true := by
  simp only [NormalEstimation.estimateNormalsKNNInRadius]
  exact foldlM_range_isSome _ (knnInRadiusOutcome pca est k (FloatArith.mul radius radius))
    est.input_points_.length
    (fun st i hi hlen => knnInRadius_body_eq pca est k _ st i (hlen ▸ hi) hlen) _ (by simp) _
    (Nat.le_refl _) (knnInRadiusOutcome_isSome pca est k _ hr)

theorem knn_length (pca : PrincipalComponentAnalysis3D F) (est : NormalEstimation F) (k : Nat)
    (r : Run F) (hr : NormalEstimation.estimateNormalsKNN pca est k = some r) :
    r.normals.length = est.input_points_.length := by
  by_cases h : est.input_points_.length < 3
  · rw [knn_small pca est k h] at hr
    cases hr
    simp
  · exact (knn_large pca est k (by omega) r hr).1

/-! ### The exhaustive-search index honours the index contract -/

theorem Example.mem_insertByDistance (points : List (Vector3f Scalar)) (q : Vector3f Scalar)
    (j x : Nat)
    (l : List Nat) : x ∈ Example.insertByDistance points q j l ↔ x = j ∨ x ∈ l := by
  induction l with
  | nil => simp [Example.insertByDistance]
  | cons h t ih =>
    simp only [Example.insertByDistance]
    split
    · simp
    · simp only [List.mem_cons, ih]
      tauto

theorem Example.mem_byDistance (points : List (Vector3f Scalar)) (q : Vector3f Scalar) (x : Nat)
    (hx : x ∈ Example.byDistance points q) : x < points.length := by
  have key : ∀ l : List Nat,
      x ∈ l.foldr (Example.insertByDistance points q) [] → x ∈ l := by
    intro l
    induction l with
    | nil => simp
    | cons h t ih =>
      intro hmem
      rw [List.foldr_cons, Example.mem_insertByDistance] at hmem
      rcases hmem with rfl | hmem
      · exact List.mem_cons_self _ _
      · exact List.mem_cons_of_mem _ (ih hmem)
  exact List.mem_range.mp (key _ hx)

theorem Example.bruteForce_inRange (points : List (Vector3f Scalar)) :
    (Example.bruteForce points).InRange points.length := by
  refine ⟨?_, ?_, ?_⟩
  · intro q k j hj
    exact Example.mem_byDistance points q j (List.mem_of_mem_take hj)
  · intro q r j hj
    exact Example.mem_byDistance points q j (List.mem_filter.mp hj).1
  · intro q k r j hj
    exact Example.mem_byDistance points q j (List.mem_filter.mp (List.mem_of_mem_take hj)).1

/-! ## The claims -/

/-- C1 (result length).  Each of the four value-returning methods, whenever it completes,
returns an array with exactly one entry per input point; and it does complete for every
point set, view point and parameter as soon as the spatial index only returns indices of
points of the set. -/
theorem result_length_eq_number_of_points (pca : PrincipalComponentAnalysis3D F)
    (est : NormalEstimation F) :
    ((∀ k r, NormalEstimation.estimateNormalsKNN pca est k = some r →
        r.normals.length = est.input_points_.length) ∧
     (∀ radius r, NormalEstimation.estimateNormalsRadius pca est radius = some r →
        r.normals.length = est.input_points_.length) ∧
     (∀ k radius r, NormalEstimation.estimateNormalsKNNInRadius pca est k radius = some r →
        r.normals.length = est.input_points_.length) ∧
     (∀ nh r, NormalEstimation.estimateNormals pca est nh = some r →
        r.normals.length = est.input_points_.length)) ∧
    (est.kd_tree_ptr_.InRange est.input_points_.length →
      (∀ k, (NormalEstimation.estimateNormalsKNN pca est k).isSome = true) ∧
      (∀ radius, (NormalEstimation.estimateNormalsRadius pca est radius).isSome = true) ∧
      (∀ k radius,
        (NormalEstimation.estimateNormalsKNNInRadius pca est k radius).isSome = true) ∧
      (∀ nh, (NormalEstimation.estimateNormals pca est nh).isSome = true)) := by
  refine ⟨⟨fun k r h => knn_length pca est k r h,
    fun radius r h => (radius_run pca est radius r h).1,
    fun k radius r h => (knnInRadius_run pca est k radius r h).1, ?_⟩, ?_⟩
  · intro nh r h
    unfold NormalEstimation.estimateNormals at h
    cases hty : nh.type <;> simp only [hty] at h
    · exact knn_length pca est _ r h
    · exact (radius_run pca est _ r h).1
    · exact (knnInRadius_run pca est _ _ r h).1
  · intro hr
    refine ⟨fun k => knn_isSome pca est k hr, fun radius => radius_isSome pca est radius hr,
      fun k radius => knnInRadius_isSome pca est k radius hr, ?_⟩
    intro nh
    unfold NormalEstimation.estimateNormals
    cases nh.type
    · exact knn_isSome pca est _ hr
    · exact radius_isSome pca est _ hr
    · exact knnInRadius_isSome pca est _ _ hr

/-- Instance of C1: on the coplanar square with its exhaustive-search index the index contract
holds, and the KNN estimation with `K = 3` completes with an array of four entries. -/
theorem result_length_eq_number_of_points_witness :
    Example.squareEstimator.kd_tree_ptr_.InRange Example.squareEstimator.input_points_.length ∧
    ∃ r, NormalEstimation.estimateNormalsKNN Example.planeFitter Example.squareEstimator 3 =
      some r ∧ r.normals.length = 4 := by
  have hr := Example.bruteForce_inRange Example.square
  have hthm := result_length_eq_number_of_points Example.planeFitter Example.squareEstimator
  obtain ⟨r, h⟩ := Option.isSome_iff_exists.mp ((hthm.2 hr).1 3)
  exact ⟨hr, r, h, hthm.1.1 3 r h⟩

theorem Vector3f.dot_neg (c d : Vector3f F) : (c.neg).dot d = FloatArith.neg (c.dot d) := by
  simp only [Vector3f.dot, Vector3f.neg, FloatArith.neg_mul_left, FloatArith.neg_add_neg]

theorem dot_nanVector (d : Vector3f F) : nanVector.dot d = FloatArith.quiet_NaN := by
  simp only [nanVector, Vector3f.Constant, Vector3f.dot, FloatArith.nan_mul,
    FloatArith.nan_add]

theorem isNaN_quiet_NaN : FloatArith.isNaN (FloatArith.quiet_NaN : F) = true :=
  (FloatArith.isNaN_iff _).mpr rfl

theorem orient_dot_ge (c v p : Vector3f F)
    (h : FloatArith.isNaN ((orient c v p).dot (v.sub p)) = false) :
    FloatArith.ge ((orient c v p).dot (v.sub p)) FloatArith.zero = true := by
  unfold orient at h ⊢
  by_cases hlt : FloatArith.lt (c.dot (v.sub p)) FloatArith.zero = true
  · rw [if_pos hlt, Vector3f.dot_neg]
    exact FloatArith.ge_neg_of_lt_zero _ hlt
  · rw [if_neg hlt] at h ⊢
    exact FloatArith.ge_of_not_lt_zero _ (by simpa using hlt) h

/-- The value of an iteration is the sentinel or an oriented candidate. -/
theorem pointOutcome_value (pca : PrincipalComponentAnalysis3D F) (est : NormalEstimation F)
    (guarded : Bool) (q : Event F) (p : Vector3f F) (L : List Nat)
    (e : Vector3f F × List (Event F))
    (h : pointOutcome pca est guarded q p L = some e) :
    (guarded = true ∧ L.length < 3 ∧ e = (nanVector, [q])) ∨
    (¬ (guarded = true ∧ L.length < 3) ∧
      gatherNeighborhood est.input_points_ L = some (positions est.input_points_ L) ∧
      e = (orient ((pca (positions est.input_points_ L)).col 2) est.view_point_ p,
        [q, Event.pca (positions est.input_points_ L)])) := by
  unfold pointOutcome at h
  split at h
  · rename_i hg
    left
    exact ⟨hg.1, hg.2, by simpa using h.symm⟩
  · rename_i hg
    right
    cases hgn : gatherNeighborhood est.input_points_ L with
    | none => simp [hgn] at h
    | some nbh =>
      have hpos := gatherNeighborhood_eq_positions _ _ _ hgn
      subst hpos
      simp only [hgn, Option.some.injEq] at h
      exact ⟨hg, rfl, h.symm⟩

theorem orientedWhereComparable_of_outcomes (est : NormalEstimation F)
    (pca : PrincipalComponentAnalysis3D F) (normals : List (Vector3f F)) (guarded : Bool)
    (outcome : Nat → Option (Vector3f F × List (Event F)))
    (hout : ∀ i p, est.input_points_[i]? = some p → ∀ e, outcome i = some e →
      ∃ q L, pointOutcome pca est guarded q p L = some e)
    (hall : ∀ i, i < est.input_points_.length →
      ∃ e, outcome i = some e ∧ normals[i]? = some e.1) :
    OrientedWhereComparable est normals := by
  unfold OrientedWhereComparable
  intro i n p hn hp hnan
  have hi : i < est.input_points_.length := (List.getElem?_eq_some.mp hp).1
  obtain ⟨e, he, hne⟩ := hall i hi
  obtain ⟨q, L, hpo⟩ := hout i p hp e he
  have hn' : n = e.1 := by
    rw [hn] at hne
    exact Option.some.inj hne
  subst hn'
  rcases pointOutcome_value pca est guarded q p L e hpo with ⟨-, -, h1⟩ | ⟨-, -, h1⟩
  · rw [h1, dot_nanVector, isNaN_quiet_NaN] at hnan
    cases hnan
  · rw [h1] at hnan ⊢
    exact orient_dot_ge _ _ _ hnan

theorem knnOutcome_pointOutcome (pca : PrincipalComponentAnalysis3D F) (est : NormalEstimation F)
    (k : Nat) (i : Nat) (p : Vector3f F) (hp : est.input_points_[i]? = some p) :
    knnOutcome pca est k i =
      pointOutcome pca est false (Event.kNNSearch p k) p (est.kd_tree_ptr_.kNNSearch p k).1 := by
  simp [knnOutcome, hp]

theorem radiusOutcome_pointOutcome (pca : PrincipalComponentAnalysis3D F)
    (est : NormalEstimation F) (radius_sq : F) (i : Nat) (p : Vector3f F)
    (hp : est.input_points_[i]? = some p) :
    radiusOutcome pca est radius_sq i =
      pointOutcome pca est true (Event.radiusSearch p radius_sq) p
        (est.kd_tree_ptr_.radiusSearch p radius_sq).1 := by
  simp [radiusOutcome, hp]

theorem knnInRadiusOutcome_pointOutcome (pca : PrincipalComponentAnalysis3D F)
    (est : NormalEstimation F) (k : Nat) (radius_sq : F) (i : Nat) (p : Vector3f F)
    (hp : est.input_points_[i]? = some p) :
    knnInRadiusOutcome pca est k radius_sq i =
      pointOutcome pca est true (Event.kNNInRadiusSearch p k radius_sq) p
        (est.kd_tree_ptr_.kNNInRadiusSearch p k radius_sq).1 := by
  simp [knnInRadiusOutcome, hp]

/-- C2 as stated fails: on the coplanar square with `K = 3` and a view point whose first
coordinate is not-a-number, the estimation completes and its first entry is `(0, 0, 1)`,
which is not the sentinel, while the comparison `dot(n, viewpoint - p) >= 0` is false. -/
theorem orientation_fails_for_nan_view_point :
    ∃ r, NormalEstimation.estimateNormalsKNN Example.planeFitter Example.nanViewEstimator 3 =
      some r ∧ ¬ Oriented Example.nanViewEstimator r.normals := by
  have h : (NormalEstimation.estimateNormalsKNN Example.planeFitter
      Example.nanViewEstimator 3).map (fun r => r.normals) =
      some [Example.vec 0 0 1, Example.vec 0 0 1, Example.vec 0 0 1, Example.vec 0 0 1] := by
    decide!
  obtain ⟨r, hr, hn⟩ := Option.map_eq_some'.mp h
  refine ⟨r, hr, ?_⟩
  intro hor
  have h0 := hor 0 (Example.vec 0 0 1) (Example.vec 0 0 0) (by simp [hn]) (by decide!)
    (by decide!)
  revert h0
  decide!

/-- C2, amended.  Under each of the three strategies, every entry `n` of a completed run
whose dot product with `viewpoint - points[i]`, computed in `float` arithmetic as the code
computes it, is a number satisfies `dot(n, viewpoint - points[i]) >= 0` for that computed
value.  This holds in every arithmetic `F`, whatever its rounding. -/
theorem oriented_where_comparable (pca : PrincipalComponentAnalysis3D F)
    (est : NormalEstimation F) :
    (∀ k r, NormalEstimation.estimateNormalsKNN pca est k = some r →
      OrientedWhereComparable est r.normals) ∧
    (∀ radius r, NormalEstimation.estimateNormalsRadius pca est radius = some r →
      OrientedWhereComparable est r.normals) ∧
    (∀ k radius r, NormalEstimation.estimateNormalsKNNInRadius pca est k radius = some r →
      OrientedWhereComparable est r.normals) := by
  refine ⟨?_, ?_, ?_⟩
  · intro k r hr
    by_cases hsmall : est.input_points_.length < 3
    · rw [knn_small pca est k hsmall] at hr
      cases hr
      intro i n p hn _ hnan
      have hn' : n = nanVector := by
        rw [List.getElem?_replicate] at hn
        split at hn
        · exact (Option.some.inj hn).symm
        · cases hn
      rw [hn', dot_nanVector, isNaN_quiet_NaN] at hnan
      cases hnan
    · exact orientedWhereComparable_of_outcomes est pca r.normals false (knnOutcome pca est k)
        (fun i p hp e he => ⟨_, _, (knnOutcome_pointOutcome pca est k i p hp) ▸ he⟩)
        (knn_large pca est k (by omega) r hr).2.1
  · intro radius r hr
    exact orientedWhereComparable_of_outcomes est pca r.normals true
      (radiusOutcome pca est (FloatArith.mul radius radius))
      (fun i p hp e he => ⟨_, _, (radiusOutcome_pointOutcome pca est _ i p hp) ▸ he⟩)
      (radius_run pca est radius r hr).2.1
  · intro k radius r hr
    exact orientedWhereComparable_of_outcomes est pca r.normals true
      (knnInRadiusOutcome pca est k (FloatArith.mul radius radius))
      (fun i p hp e he => ⟨_, _, (knnInRadiusOutcome_pointOutcome pca est k _ i p hp) ▸ he⟩)
      (knnInRadius_run pca est k radius r hr).2.1

/-- Instance of the amended C2: on the coplanar square seen from `(0, 0, 1)` with `K = 3`
the run completes, its first entry is `(0, 0, 1)`, the dot product with
`viewpoint - points[0]` is a number, and it is non-negative. -/
theorem oriented_where_comparable_witness :
    ∃ r, NormalEstimation.estimateNormalsKNN Example.planeFitter Example.squareEstimator 3 =
      some r ∧ r.normals[0]? = some (Example.vec 0 0 1) ∧
      Example.squareEstimator.input_points_[0]? = some (Example.vec 0 0 0) ∧
      ((Example.vec 0 0 1).dot
        (Example.squareEstimator.view_point_.sub (Example.vec 0 0 0))).isNaN = false ∧
      Scalar.ge ((Example.vec 0 0 1).dot
        (Example.squareEstimator.view_point_.sub (Example.vec 0 0 0))) (Scalar.fin 0) = true := by
  have h : (NormalEstimation.estimateNormalsKNN Example.planeFitter
      Example.squareEstimator 3).map (fun r => r.normals) =
      some [Example.vec 0 0 1, Example.vec 0 0 1, Example.vec 0 0 1, Example.vec 0 0 1] := by
    decide!
  obtain ⟨r, hr, hn⟩ := Option.map_eq_some'.mp h
  have h0 : r.normals[0]? = some (Example.vec 0 0 1) := by simp [hn]
  have hp : Example.squareEstimator.input_points_[0]? = some (Example.vec 0 0 0) := by decide!
  have hnan : ((Example.vec 0 0 1).dot
      (Example.squareEstimator.view_point_.sub (Example.vec 0 0 0))).isNaN = false := by
    decide!
  exact ⟨r, hr, h0, hp, hnan,
    (oriented_where_comparable Example.planeFitter Example.squareEstimator).1 3 r hr 0
      (Example.vec 0 0 1) (Example.vec 0 0 0) h0 hp hnan⟩

/-- C3 (fewer than three points).  When the point set has 0, 1 or 2 points,
`estimateNormalsKNN` completes for every `num_neighbors`, index and view point, every entry
of its result is the undefined sentinel, whose three components are not-a-number, there is
one entry per point, and no collaborator is called. -/
theorem knn_all_sentinel_below_three_points (pca : PrincipalComponentAnalysis3D F)
    (est : NormalEstimation F) (num_neighbors : Nat) (h : est.input_points_.length < 3) :
    ∃ r, NormalEstimation.estimateNormalsKNN pca est num_neighbors = some r ∧
      r.normals.length = est.input_points_.length ∧
      (∀ n ∈ r.normals, n = nanVector ∧
        FloatArith.isNaN n.x = true ∧ FloatArith.isNaN n.y = true ∧
        FloatArith.isNaN n.z = true) ∧
      r.trace = [] := by
  refine ⟨_, knn_small pca est num_neighbors h, by simp, ?_, rfl⟩
  intro n hn
  have hn' : n = nanVector := List.eq_of_mem_replicate hn
  subst hn'
  exact ⟨rfl, isNaN_quiet_NaN, isNaN_quiet_NaN, isNaN_quiet_NaN⟩

/-- Instance of C3: two points, `num_neighbors = 5`. -/
theorem knn_all_sentinel_below_three_points_witness :
    Example.pairEstimator.input_points_.length < 3 ∧
    ∃ r, NormalEstimation.estimateNormalsKNN Example.planeFitter Example.pairEstimator 5 =
      some r ∧ r.normals.length = Example.pairEstimator.input_points_.length ∧
      (∀ n ∈ r.normals, n = nanVector ∧
        n.x.isNaN = true ∧ n.y.isNaN = true ∧ n.z.isNaN = true) ∧
      r.trace = [] :=
  ⟨by decide, knn_all_sentinel_below_three_points Example.planeFitter Example.pairEstimator 5
    (by decide)⟩

theorem mem_tracesUpTo (entry : Nat → Option (Vector3f F × List (Event F))) (m : Nat)
    (e : Event F)
    (h : e ∈ tracesUpTo entry m) : ∃ i, i < m ∧ ∃ o, entry i = some o ∧ e ∈ o.2 := by
  simp only [tracesUpTo, List.mem_flatten, List.mem_map, List.mem_range] at h
  obtain ⟨l, ⟨i, hi, hl⟩, hel⟩ := h
  refine ⟨i, hi, ?_⟩
  cases ho : entry i with
  | none =>
    rw [ho] at hl
    subst hl
    cases hel
  | some o =>
    rw [ho] at hl
    subst hl
    exact ⟨o, rfl, hel⟩

/-- A loop all of whose iterations store the sentinel after a single query completes, fills
the array with the sentinel and never applies the fitter. -/
theorem foldlM_range_all_sentinel (step : Run F → Nat → Option (Run F))
    (entry : Nat → Option (Vector3f F × List (Event F))) (n : Nat)
    (hstep : ∀ st i, i < n → st.normals.length = n →
      step st i = (entry i).map (applyOutcome st i))
    (hall : ∀ i, i < n → ∃ q, entry i = some (nanVector, [q]) ∧ q.isFit = false) :
    ∃ r, (List.range n).foldlM step
        { normals := List.replicate n Vector3f.uninitialized, trace := [] } = some r ∧
      r.normals.length = n ∧ AllSentinel r.normals ∧ ∀ e ∈ r.trace, e.isFit = false := by
  have hsome := foldlM_range_isSome step entry n hstep
    { normals := List.replicate n Vector3f.uninitialized, trace := [] } (by simp) n
    (Nat.le_refl _) (fun i hi => by obtain ⟨q, hq, -⟩ := hall i hi; simp [hq])
  obtain ⟨r, hr⟩ := Option.isSome_iff_exists.mp hsome
  obtain ⟨hlen, hlow, -, htr⟩ := foldlM_range_spec step entry n hstep _ (by simp) n
    (Nat.le_refl _) r hr
  refine ⟨r, hr, hlen, ?_, ?_⟩
  · intro x hx
    obtain ⟨i, hi⟩ := List.mem_iff_getElem?.mp hx
    have hlt : i < n := hlen ▸ (List.getElem?_eq_some.mp hi).1
    obtain ⟨e, he, hget⟩ := hlow i hlt
    obtain ⟨q, hq, -⟩ := hall i hlt
    rw [hq] at he
    cases he
    rw [hi] at hget
    exact Option.some.inj hget
  · intro e he
    rw [htr] at he
    simp only [List.nil_append] at he
    obtain ⟨i, hi, o, ho, hmem⟩ := mem_tracesUpTo entry n e he
    obtain ⟨q, hq, hfit⟩ := hall i hi
    rw [hq] at ho
    cases ho
    simp only [List.mem_singleton] at hmem
    exact hmem ▸ hfit

/-- C4 (fewer than three neighbours, radius and hybrid strategies).  In a completed run of
`estimateNormalsRadius` or `estimateNormalsKNNInRadius`, the entry of every point whose query
returns fewer than three neighbour indices is the undefined sentinel, and the loop body for
that point makes the query and nothing else, so the fitter is not applied.  When this holds
for every point, as when each query returns the point alone, the run completes, every entry
is the sentinel and the fitter is never applied. -/
theorem sentinel_below_three_neighbors (pca : PrincipalComponentAnalysis3D F)
    (est : NormalEstimation F) :
    (∀ radius r i p, NormalEstimation.estimateNormalsRadius pca est radius = some r →
      est.input_points_[i]? = some p →
      (est.kd_tree_ptr_.radiusSearch p (FloatArith.mul radius radius)).1.length < 3 →
      r.normals[i]? = some nanVector ∧
      ∀ st st', NormalEstimation.estimateNormalsRadius_body pca est (FloatArith.mul radius radius)
          st i = some st' →
        st'.trace = st.trace ++ [Event.radiusSearch p (FloatArith.mul radius radius)]) ∧
    (∀ k radius r i p, NormalEstimation.estimateNormalsKNNInRadius pca est k radius = some r →
      est.input_points_[i]? = some p →
      (est.kd_tree_ptr_.kNNInRadiusSearch p k (FloatArith.mul radius radius)).1.length < 3 →
      r.normals[i]? = some nanVector ∧
      ∀ st st', NormalEstimation.estimateNormalsKNNInRadius_body pca est k
          (FloatArith.mul radius radius) st i = some st' →
        st'.trace = st.trace ++ [Event.kNNInRadiusSearch p k (FloatArith.mul radius radius)]) ∧
    (∀ radius,
      (∀ (i : Nat) (p : Vector3f F), est.input_points_[i]? = some p →
        (est.kd_tree_ptr_.radiusSearch p (FloatArith.mul radius radius)).1.length < 3) →
      ∃ r, NormalEstimation.estimateNormalsRadius pca est radius = some r ∧
        r.normals.length = est.input_points_.length ∧ AllSentinel r.normals ∧
        ∀ e ∈ r.trace, e.isFit = false) ∧
    (∀ k radius,
      (∀ (i : Nat) (p : Vector3f F), est.input_points_[i]? = some p →
        (est.kd_tree_ptr_.kNNInRadiusSearch p k (FloatArith.mul radius radius)).1.length < 3) →
      ∃ r, NormalEstimation.estimateNormalsKNNInRadius pca est k radius = some r ∧
        r.normals.length = est.input_points_.length ∧ AllSentinel r.normals ∧
        ∀ e ∈ r.trace, e.isFit = false) := by
  refine ⟨?_, ?_, ?_, ?_⟩
  · intro radius r i p hr hp hlt
    have hi : i < est.input_points_.length := (List.getElem?_eq_some.mp hp).1
    refine ⟨?_, ?_⟩
    · obtain ⟨e, he, hget⟩ := (radius_run pca est radius r hr).2.1 i hi
      rw [radiusOutcome_pointOutcome pca est _ i p hp] at he
      simp only [pointOutcome, hlt, and_self, if_true, Option.some.injEq] at he
      rw [← he] at hget
      exact hget
    · intro st st' hst
      simp only [NormalEstimation.estimateNormalsRadius_body, hp, Option.bind_eq_bind,
        Option.some_bind, hlt, if_true] at hst
      cases hw : writeAt st.normals i (Vector3f.Constant FloatArith.quiet_NaN) with
      | none => simp [hw] at hst
      | some ns =>
        simp only [hw, Option.some_bind, Option.some.injEq] at hst
        rw [← hst]
  · intro k radius r i p hr hp hlt
    have hi : i < est.input_points_.length := (List.getElem?_eq_some.mp hp).1
    refine ⟨?_, ?_⟩
    · obtain ⟨e, he, hget⟩ := (knnInRadius_run pca est k radius r hr).2.1 i hi
      rw [knnInRadiusOutcome_pointOutcome pca est k _ i p hp] at he
      simp only [pointOutcome, hlt, and_self, if_true, Option.some.injEq] at he
      rw [← he] at hget
      exact hget
    · intro st st' hst
      simp only [NormalEstimation.estimateNormalsKNNInRadius_body, hp, Option.bind_eq_bind,
        Option.some_bind, hlt, if_true] at hst
      cases hw : writeAt st.normals i (Vector3f.Constant FloatArith.quiet_NaN) with
      | none => simp [hw] at hst
      | some ns =>
        simp only [hw, Option.some_bind, Option.some.injEq] at hst
        rw [← hst]
  · intro radius hall
    simp only [NormalEstimation.estimateNormalsRadius]
    apply foldlM_range_all_sentinel _ (radiusOutcome pca est (FloatArith.mul radius radius))
      est.input_points_.length
      (fun st i hi hlen => radius_body_eq pca est _ st i (hlen ▸ hi) hlen)
    intro i hi
    have hp := List.getElem?_eq_getElem hi
    refine ⟨Event.radiusSearch est.input_points_[i] (FloatArith.mul radius radius), ?_, rfl⟩
    rw [radiusOutcome_pointOutcome pca est _ i _ hp]
    simp [pointOutcome, hall i _ hp]
  · intro k radius hall
    simp only [NormalEstimation.estimateNormalsKNNInRadius]
    apply foldlM_range_all_sentinel _
      (knnInRadiusOutcome pca est k (FloatArith.mul radius radius)) est.input_points_.length
      (fun st i hi hlen => knnInRadius_body_eq pca est k _ st i (hlen ▸ hi) hlen)
    intro i hi
    have hp := List.getElem?_eq_getElem hi
    refine ⟨Event.kNNInRadiusSearch est.input_points_[i] k (FloatArith.mul radius radius), ?_,
      rfl⟩
    rw [knnInRadiusOutcome_pointOutcome pca est k _ i _ hp]
    simp [pointOutcome, hall i _ hp]

/-- Instance of C4, the sparse-radius scenario: three collinear points with unit spacing and
radius one half.  Every query returns fewer than three indices, the run completes, all three
entries are the sentinel and the fitter is never applied. -/
theorem sentinel_below_three_neighbors_witness :
    (∀ (i : Nat) (p : Vector3f Scalar), Example.collinearEstimator.input_points_[i]? = some p →
      (Example.collinearEstimator.kd_tree_ptr_.radiusSearch p
        (Scalar.mul (Scalar.fin (1 / 2)) (Scalar.fin (1 / 2)))).1.length < 3) ∧
    ∃ r, NormalEstimation.estimateNormalsRadius Example.planeFitter Example.collinearEstimator
        (Scalar.fin (1 / 2)) = some r ∧
      r.normals.length = Example.collinearEstimator.input_points_.length ∧
      AllSentinel r.normals ∧ (∀ e ∈ r.trace, e.isFit = false) ∧
      r.normals[1]? = some nanVector := by
  have hall : ∀ (i : Nat) (p : Vector3f Scalar),
      Example.collinearEstimator.input_points_[i]? = some p →
      (Example.collinearEstimator.kd_tree_ptr_.radiusSearch p
        (Scalar.mul (Scalar.fin (1 / 2)) (Scalar.fin (1 / 2)))).1.length < 3 := by
    intro i p hp
    have hmem : p ∈ Example.collinear := List.mem_iff_getElem?.mpr ⟨i, hp⟩
    simp only [Example.collinear, List.mem_cons, List.mem_singleton, List.not_mem_nil,
      or_false] at hmem
    rcases hmem with rfl | rfl | rfl <;> decide!
  have hthm := sentinel_below_three_neighbors Example.planeFitter Example.collinearEstimator
  obtain ⟨r, hr, hlen, hsent, hfit⟩ := hthm.2.2.1 (Scalar.fin (1 / 2)) hall
  have hp1 : Example.collinearEstimator.input_points_[1]? = some (Example.vec 1 0 0) := by
    decide!
  exact ⟨hall, r, hr, hlen, hsent, hfit,
    (hthm.1 (Scalar.fin (1 / 2)) r 1 (Example.vec 1 0 0) hr hp1 (hall 1 _ hp1)).1⟩

/-- C5 on the code: on the coplanar square (four points) with `num_neighbors = 2`, the query
for the first point returns two indices, yet `estimateNormalsKNN` applies the fitter to the
two-point neighbourhood and stores `(0, 0, 1)`, which is not the sentinel. -/
theorem knn_two_neighbors_fitted_not_sentinel :
    3 ≤ Example.squareEstimator.input_points_.length ∧
    (Example.squareEstimator.kd_tree_ptr_.kNNSearch (Example.vec 0 0 0) 2).1 = [0, 2] ∧
    (NormalEstimation.estimateNormalsKNN Example.planeFitter Example.squareEstimator 2).map
        (fun r => (r.normals[0]?, r.trace.take 2)) =
      some (some (Example.vec 0 0 1),
        [Event.kNNSearch (Example.vec 0 0 0) 2,
         Event.pca [Example.vec 0 0 0, Example.vec 0 1 0]]) ∧
    Example.vec 0 0 1 ≠ nanVector := by
  decide!

theorem knn_entry (pca : PrincipalComponentAnalysis3D F) (est : NormalEstimation F) (k : Nat)
    (r : Run F) (i : Nat) (p : Vector3f F) (h3 : 3 ≤ est.input_points_.length)
    (hr : NormalEstimation.estimateNormalsKNN pca est k = some r)
    (hp : est.input_points_[i]? = some p) :
    gatherNeighborhood est.input_points_ (est.kd_tree_ptr_.kNNSearch p k).1 =
      some (positions est.input_points_ (est.kd_tree_ptr_.kNNSearch p k).1) ∧
    r.normals[i]? = some (orient
      ((pca (positions est.input_points_ (est.kd_tree_ptr_.kNNSearch p k).1)).col 2)
      est.view_point_ p) := by
  have hi : i < est.input_points_.length := (List.getElem?_eq_some.mp hp).1
  obtain ⟨e, he, hget⟩ := (knn_large pca est k h3 r hr).2.1 i hi
  rw [knnOutcome_pointOutcome pca est k i p hp] at he
  rcases pointOutcome_value pca est false _ p _ e he with ⟨hg, -⟩ | ⟨-, hgather, h1⟩
  · cases hg
  · rw [h1] at hget
    exact ⟨hgather, hget⟩

theorem radius_entry (pca : PrincipalComponentAnalysis3D F) (est : NormalEstimation F)
    (radius : F) (r : Run F) (i : Nat) (p : Vector3f F)
    (hr : NormalEstimation.estimateNormalsRadius pca est radius = some r)
    (hp : est.input_points_[i]? = some p)
    (hL : 3 ≤ (est.kd_tree_ptr_.radiusSearch p (FloatArith.mul radius radius)).1.length) :
    gatherNeighborhood est.input_points_
        (est.kd_tree_ptr_.radiusSearch p (FloatArith.mul radius radius)).1 =
      some (positions est.input_points_
        (est.kd_tree_ptr_.radiusSearch p (FloatArith.mul radius radius)).1) ∧
    r.normals[i]? = some (orient
      ((pca (positions est.input_points_
        (est.kd_tree_ptr_.radiusSearch p (FloatArith.mul radius radius)).1)).col 2)
      est.view_point_ p) := by
  have hi : i < est.input_points_.length := (List.getElem?_eq_some.mp hp).1
  obtain ⟨e, he, hget⟩ := (radius_run pca est radius r hr).2.1 i hi
  rw [radiusOutcome_pointOutcome pca est _ i p hp] at he
  rcases pointOutcome_value pca est true _ p _ e he with ⟨-, hlt, -⟩ | ⟨-, hgather, h1⟩
  · omega
  · rw [h1] at hget
    exact ⟨hgather, hget⟩

theorem knnInRadius_entry (pca : PrincipalComponentAnalysis3D F) (est : NormalEstimation F)
    (k : Nat) (radius : F) (r : Run F) (i : Nat) (p : Vector3f F)
    (hr : NormalEstimation.estimateNormalsKNNInRadius pca est k radius = some r)
    (hp : est.input_points_[i]? = some p)
    (hL : 3 ≤ (est.kd_tree_ptr_.kNNInRadiusSearch p k (FloatArith.mul radius radius)).1.length) :
    gatherNeighborhood est.input_points_
        (est.kd_tree_ptr_.kNNInRadiusSearch p k (FloatArith.mul radius radius)).1 =
      some (positions est.input_points_
        (est.kd_tree_ptr_.kNNInRadiusSearch p k (FloatArith.mul radius radius)).1) ∧
    r.normals[i]? = some (orient
      ((pca (positions est.input_points_
        (est.kd_tree_ptr_.kNNInRadiusSearch p k (FloatArith.mul radius radius)).1)).col 2)
      est.view_point_ p) := by
  have hi : i < est.input_points_.length := (List.getElem?_eq_some.mp hp).1
  obtain ⟨e, he, hget⟩ := (knnInRadius_run pca est k radius r hr).2.1 i hi
  rw [knnInRadiusOutcome_pointOutcome pca est k _ i p hp] at he
  rcases pointOutcome_value pca est true _ p _ e he with ⟨-, hlt, -⟩ | ⟨-, hgather, h1⟩
  · omega
  · rw [h1] at hget
    exact ⟨hgather, hget⟩

/-- C6 (fit and orientation).  In a completed run of any strategy, at every point index `i`
whose query returns a list `L` of at least three neighbour indices (and, for KNN, when the
point set has at least three points), the neighbourhood handed to the fitter is the list of
positions `[points[j] for j in L]` in the returned order, and the entry is `orient c`, where
`c` is column 2 of the fitter's eigenvector matrix for that neighbourhood; `orient c` is `-c`
when `dot(c, viewpoint - points[i])` is strictly negative and `c` otherwise, in particular
`c` itself when that dot product is zero.  The dot product is the `float` value
`c.dot(viewpoint - points[i])` that the code computes, so the statement holds in every
arithmetic `F`, whatever its rounding. -/
theorem entry_is_oriented_least_variance_direction (pca : PrincipalComponentAnalysis3D F)
    (est : NormalEstimation F) :
    (∀ k r (i : Nat) (p : Vector3f F), 3 ≤ est.input_points_.length →
      NormalEstimation.estimateNormalsKNN pca est k = some r →
      est.input_points_[i]? = some p →
      3 ≤ (est.kd_tree_ptr_.kNNSearch p k).1.length →
      gatherNeighborhood est.input_points_ (est.kd_tree_ptr_.kNNSearch p k).1 =
        some (positions est.input_points_ (est.kd_tree_ptr_.kNNSearch p k).1) ∧
      r.normals[i]? = some (orient
        ((pca (positions est.input_points_ (est.kd_tree_ptr_.kNNSearch p k).1)).col 2)
        est.view_point_ p)) ∧
    (∀ radius r (i : Nat) (p : Vector3f F),
      NormalEstimation.estimateNormalsRadius pca est radius = some r →
      est.input_points_[i]? = some p →
      3 ≤ (est.kd_tree_ptr_.radiusSearch p (FloatArith.mul radius radius)).1.length →
      gatherNeighborhood est.input_points_
          (est.kd_tree_ptr_.radiusSearch p (FloatArith.mul radius radius)).1 =
        some (positions est.input_points_
          (est.kd_tree_ptr_.radiusSearch p (FloatArith.mul radius radius)).1) ∧
      r.normals[i]? = some (orient
        ((pca (positions est.input_points_
          (est.kd_tree_ptr_.radiusSearch p (FloatArith.mul radius radius)).1)).col 2)
        est.view_point_ p)) ∧
    (∀ k radius r (i : Nat) (p : Vector3f F),
      NormalEstimation.estimateNormalsKNNInRadius pca est k radius = some r →
      est.input_points_[i]? = some p →
      3 ≤ (est.kd_tree_ptr_.kNNInRadiusSearch p k (FloatArith.mul radius radius)).1.length →
      gatherNeighborhood est.input_points_
          (est.kd_tree_ptr_.kNNInRadiusSearch p k (FloatArith.mul radius radius)).1 =
        some (positions est.input_points_
          (est.kd_tree_ptr_.kNNInRadiusSearch p k (FloatArith.mul radius radius)).1) ∧
      r.normals[i]? = some (orient
        ((pca (positions est.input_points_
          (est.kd_tree_ptr_.kNNInRadiusSearch p k (FloatArith.mul radius radius)).1)).col 2)
        est.view_point_ p)) ∧
    (∀ c v p : Vector3f F, FloatArith.lt (c.dot (v.sub p)) FloatArith.zero = true →
      orient c v p = c.neg) ∧
    (∀ c v p : Vector3f F, FloatArith.lt (c.dot (v.sub p)) FloatArith.zero = false →
      orient c v p = c) ∧
    (∀ c v p : Vector3f F, c.dot (v.sub p) = FloatArith.zero → orient c v p = c) := by
  refine ⟨fun k r i p h3 hr hp _ => knn_entry pca est k r i p h3 hr hp,
    fun radius r i p hr hp hL => radius_entry pca est radius r i p hr hp hL,
    fun k radius r i p hr hp hL => knnInRadius_entry pca est k radius r i p hr hp hL,
    ?_, ?_, ?_⟩
  · intro c v p h
    simp [orient, h]
  · intro c v p h
    simp [orient, h]
  · intro c v p h
    simp [orient, h, FloatArith.lt_zero_zero]

/-- Instance of C6, the coplanar-square scenario: `K = 3`, view point `(0, 0, 1)`, first
point.  The query returns three indices and the entry is the oriented column 2 of the fit,
which evaluates to `(0, 0, 1)`. -/
theorem entry_is_oriented_least_variance_direction_witness :
    3 ≤ Example.squareEstimator.input_points_.length ∧
    Example.squareEstimator.input_points_[0]? = some (Example.vec 0 0 0) ∧
    3 ≤ (Example.squareEstimator.kd_tree_ptr_.kNNSearch (Example.vec 0 0 0) 3).1.length ∧
    ∃ r, NormalEstimation.estimateNormalsKNN Example.planeFitter Example.squareEstimator 3 =
        some r ∧
      r.normals[0]? = some (orient
        ((Example.planeFitter (positions Example.squareEstimator.input_points_
          (Example.squareEstimator.kd_tree_ptr_.kNNSearch (Example.vec 0 0 0) 3).1)).col 2)
        Example.squareEstimator.view_point_ (Example.vec 0 0 0)) ∧
      r.normals[0]? = some (Example.vec 0 0 1) := by
  have hsome : (NormalEstimation.estimateNormalsKNN Example.planeFitter
      Example.squareEstimator 3).isSome = true := by decide!
  obtain ⟨r, hr⟩ := Option.isSome_iff_exists.mp hsome
  have h3 : 3 ≤ Example.squareEstimator.input_points_.length := by decide
  have hp : Example.squareEstimator.input_points_[0]? = some (Example.vec 0 0 0) := by decide!
  have hL : 3 ≤ (Example.squareEstimator.kd_tree_ptr_.kNNSearch
      (Example.vec 0 0 0) 3).1.length := by decide!
  have hentry := (entry_is_oriented_least_variance_direction Example.planeFitter
    Example.squareEstimator).1 3 r 0 (Example.vec 0 0 0) h3 hr hp hL
  refine ⟨h3, hp, hL, r, hr, hentry.2, ?_⟩
  rw [hentry.2]
  decide!

/-- C7 (dispatch).  For every descriptor, `estimateNormals` is the result of the one strategy
named by the tag, called with the descriptor's parameters; the tag is one of the three, so
every descriptor is handled. -/
theorem estimateNormals_dispatches_on_tag (pca : PrincipalComponentAnalysis3D F)
    (est : NormalEstimation F) (nh : Neighborhood F) :
    (nh.type = NeighborhoodType.KNN →
      NormalEstimation.estimateNormals pca est nh =
        NormalEstimation.estimateNormalsKNN pca est nh.maxNumberOfNeighbors) ∧
    (nh.type = NeighborhoodType.RADIUS →
      NormalEstimation.estimateNormals pca est nh =
        NormalEstimation.estimateNormalsRadius pca est nh.radius) ∧
    (nh.type = NeighborhoodType.KNN_IN_RADIUS →
      NormalEstimation.estimateNormals pca est nh =
        NormalEstimation.estimateNormalsKNNInRadius pca est nh.maxNumberOfNeighbors
          nh.radius) ∧
    (nh.type = NeighborhoodType.KNN ∨ nh.type = NeighborhoodType.RADIUS ∨
      nh.type = NeighborhoodType.KNN_IN_RADIUS) := by
  refine ⟨?_, ?_, ?_, ?_⟩
  · intro h
    simp [NormalEstimation.estimateNormals, h]
  · intro h
    simp [NormalEstimation.estimateNormals, h]
  · intro h
    simp [NormalEstimation.estimateNormals, h]
  · cases nh.type <;> simp

/-- Instance of C7: one descriptor per tag over the coplanar square. -/
theorem estimateNormals_dispatches_on_tag_witness :
    NormalEstimation.estimateNormals Example.planeFitter Example.squareEstimator
        ⟨NeighborhoodType.KNN, 3, Scalar.fin 2⟩ =
      NormalEstimation.estimateNormalsKNN Example.planeFitter Example.squareEstimator 3 ∧
    NormalEstimation.estimateNormals Example.planeFitter Example.squareEstimator
        ⟨NeighborhoodType.RADIUS, 3, Scalar.fin 2⟩ =
      NormalEstimation.estimateNormalsRadius Example.planeFitter Example.squareEstimator
        (Scalar.fin 2) ∧
    NormalEstimation.estimateNormals Example.planeFitter Example.squareEstimator
        ⟨NeighborhoodType.KNN_IN_RADIUS, 3, Scalar.fin 2⟩ =
      NormalEstimation.estimateNormalsKNNInRadius Example.planeFitter Example.squareEstimator 3
        (Scalar.fin 2) :=
  ⟨(estimateNormals_dispatches_on_tag Example.planeFitter Example.squareEstimator
      ⟨NeighborhoodType.KNN, 3, Scalar.fin 2⟩).1 rfl,
   (estimateNormals_dispatches_on_tag Example.planeFitter Example.squareEstimator
      ⟨NeighborhoodType.RADIUS, 3, Scalar.fin 2⟩).2.1 rfl,
   (estimateNormals_dispatches_on_tag Example.planeFitter Example.squareEstimator
      ⟨NeighborhoodType.KNN_IN_RADIUS, 3, Scalar.fin 2⟩).2.2.1 rfl⟩

theorem knn_ignores_container (pca : PrincipalComponentAnalysis3D F) (est : NormalEstimation F)
    (c : Option (PointCloud F)) (k : Nat) :
    NormalEstimation.estimateNormalsKNN pca { est with input_cloud_ := c } k =
      NormalEstimation.estimateNormalsKNN pca est k := rfl

theorem radius_ignores_container (pca : PrincipalComponentAnalysis3D F) (est : NormalEstimation F)
    (c : Option (PointCloud F)) (radius : F) :
    NormalEstimation.estimateNormalsRadius pca { est with input_cloud_ := c } radius =
      NormalEstimation.estimateNormalsRadius pca est radius := rfl

theorem knnInRadius_ignores_container (pca : PrincipalComponentAnalysis3D F)
    (est : NormalEstimation F) (c : Option (PointCloud F)) (k : Nat) (radius : F) :
    NormalEstimation.estimateNormalsKNNInRadius pca { est with input_cloud_ := c } k radius =
      NormalEstimation.estimateNormalsKNNInRadius pca est k radius := rfl

theorem estimateNormals_ignores_container (pca : PrincipalComponentAnalysis3D F)
    (est : NormalEstimation F) (c : Option (PointCloud F)) (nh : Neighborhood F) :
    NormalEstimation.estimateNormals pca { est with input_cloud_ := c } nh =
      NormalEstimation.estimateNormals pca est nh := rfl

/-- C8 (in-place consistency).  For an estimator whose container is `cloud`, each in-place
method yields exactly the state obtained by calling the corresponding value-returning method
with the same arguments and assigning the returned array to the container's normals, with
the same collaborator calls; and the outcome is the same whatever the normal array held
before the call. -/
theorem in_place_equals_assigning_returned_array (pca : PrincipalComponentAnalysis3D F)
    (est : NormalEstimation F) (cloud : PointCloud F) (h : est.input_cloud_ = some cloud) :
    (∀ k, NormalEstimation.estimateNormalsInPlaceKNN pca est k =
      assignReturned est cloud (NormalEstimation.estimateNormalsKNN pca est k)) ∧
    (∀ radius, NormalEstimation.estimateNormalsInPlaceRadius pca est radius =
      assignReturned est cloud (NormalEstimation.estimateNormalsRadius pca est radius)) ∧
    (∀ k radius, NormalEstimation.estimateNormalsInPlaceKNNInRadius pca est k radius =
      assignReturned est cloud
        (NormalEstimation.estimateNormalsKNNInRadius pca est k radius)) ∧
    (∀ nh, NormalEstimation.estimateNormalsInPlace pca est nh =
      assignReturned est cloud (NormalEstimation.estimateNormals pca est nh)) ∧
    (∀ old k, NormalEstimation.estimateNormalsInPlaceKNN pca (withPriorNormals est old) k =
      NormalEstimation.estimateNormalsInPlaceKNN pca est k) ∧
    (∀ old radius,
      NormalEstimation.estimateNormalsInPlaceRadius pca (withPriorNormals est old) radius =
      NormalEstimation.estimateNormalsInPlaceRadius pca est radius) ∧
    (∀ old k radius,
      NormalEstimation.estimateNormalsInPlaceKNNInRadius pca (withPriorNormals est old) k
        radius =
      NormalEstimation.estimateNormalsInPlaceKNNInRadius pca est k radius) ∧
    (∀ old nh, NormalEstimation.estimateNormalsInPlace pca (withPriorNormals est old) nh =
      NormalEstimation.estimateNormalsInPlace pca est nh) := by
  refine ⟨?_, ?_, ?_, ?_, ?_, ?_, ?_, ?_⟩
  · intro k
    simp only [NormalEstimation.estimateNormalsInPlaceKNN, h, assignReturned]
    cases NormalEstimation.estimateNormalsKNN pca est k <;> rfl
  · intro radius
    simp only [NormalEstimation.estimateNormalsInPlaceRadius, h, assignReturned]
    cases NormalEstimation.estimateNormalsRadius pca est radius <;> rfl
  · intro k radius
    simp only [NormalEstimation.estimateNormalsInPlaceKNNInRadius, h, assignReturned]
    cases NormalEstimation.estimateNormalsKNNInRadius pca est k radius <;> rfl
  · intro nh
    simp only [NormalEstimation.estimateNormalsInPlace, h, assignReturned]
    cases NormalEstimation.estimateNormals pca est nh <;> rfl
  · intro old k
    simp only [NormalEstimation.estimateNormalsInPlaceKNN, withPriorNormals, h,
      Option.map_some', knn_ignores_container]
  · intro old radius
    simp only [NormalEstimation.estimateNormalsInPlaceRadius, withPriorNormals, h,
      Option.map_some', radius_ignores_container]
  · intro old k radius
    simp only [NormalEstimation.estimateNormalsInPlaceKNNInRadius, withPriorNormals, h,
      Option.map_some', knnInRadius_ignores_container]
  · intro old nh
    simp only [NormalEstimation.estimateNormalsInPlace, withPriorNormals, h,
      Option.map_some', estimateNormals_ignores_container]

/-- Instance of C8: the estimator over the container holding the square and one stale
normal; after the in-place KNN call with `K = 3` the container holds the four normals
`(0, 0, 1)`. -/
theorem in_place_equals_assigning_returned_array_witness :
    Example.cloudEstimator.input_cloud_ = some Example.squareCloud ∧
    NormalEstimation.estimateNormalsInPlaceKNN Example.planeFitter Example.cloudEstimator 3 =
      assignReturned Example.cloudEstimator Example.squareCloud
        (NormalEstimation.estimateNormalsKNN Example.planeFitter Example.cloudEstimator 3) ∧
    (NormalEstimation.estimateNormalsInPlaceKNN Example.planeFitter Example.cloudEstimator
        3).map (fun s => s.1.input_cloud_) =
      some (some { points := Example.square,
                   normals := [Example.vec 0 0 1, Example.vec 0 0 1, Example.vec 0 0 1,
                     Example.vec 0 0 1] }) :=
  ⟨rfl,
   (in_place_equals_assigning_returned_array Example.planeFitter Example.cloudEstimator
      Example.squareCloud rfl).1 3,
   by decide!⟩

/-- C9 (no container).  The two constructors over a raw point array leave the container
reference empty, setting the view point keeps it empty, and on every estimator without a
container each of the four in-place methods, for every argument, returns the estimator
unchanged (points, view point, index handle, ownership flag, container reference) and makes
no call to the spatial index or to the fitter. -/
theorem in_place_without_container_is_noop (pca : PrincipalComponentAnalysis3D F) :
    (∀ (build : List (Vector3f F) → KDTree3D F) (points : List (Vector3f F)),
      (NormalEstimation.fromPoints build points).input_cloud_ = none) ∧
    (∀ (points : List (Vector3f F)) (kd_tree : KDTree3D F),
      (NormalEstimation.fromPointsWithTree points kd_tree).input_cloud_ = none) ∧
    (∀ (est : NormalEstimation F) vp, est.input_cloud_ = none →
      (est.setViewPoint vp).input_cloud_ = none) ∧
    (∀ est : NormalEstimation F, est.input_cloud_ = none →
      (∀ k, NormalEstimation.estimateNormalsInPlaceKNN pca est k = some (est, [])) ∧
      (∀ radius, NormalEstimation.estimateNormalsInPlaceRadius pca est radius =
        some (est, [])) ∧
      (∀ k radius, NormalEstimation.estimateNormalsInPlaceKNNInRadius pca est k radius =
        some (est, [])) ∧
      (∀ nh, NormalEstimation.estimateNormalsInPlace pca est nh = some (est, []))) := by
  refine ⟨fun _ _ => rfl, fun _ _ => rfl, fun _ _ h => h, ?_⟩
  intro est h
  refine ⟨?_, ?_, ?_, ?_⟩
  · intro k
    simp only [NormalEstimation.estimateNormalsInPlaceKNN, h]
  · intro radius
    simp only [NormalEstimation.estimateNormalsInPlaceRadius, h]
  · intro k radius
    simp only [NormalEstimation.estimateNormalsInPlaceKNNInRadius, h]
  · intro nh
    simp only [NormalEstimation.estimateNormalsInPlace, h]

/-- Instance of C9: the estimator built over the raw array of the square. -/
theorem in_place_without_container_is_noop_witness :
    Example.squareEstimator.input_cloud_ = none ∧
    NormalEstimation.estimateNormalsInPlaceKNN Example.planeFitter Example.squareEstimator 3 =
      some (Example.squareEstimator, []) ∧
    NormalEstimation.estimateNormalsInPlace Example.planeFitter Example.squareEstimator
        ⟨NeighborhoodType.RADIUS, 0, Scalar.fin 2⟩ =
      some (Example.squareEstimator, []) :=
  ⟨rfl,
   ((in_place_without_container_is_noop Example.planeFitter).2.2.2
      Example.squareEstimator rfl).1 3,
   ((in_place_without_container_is_noop Example.planeFitter).2.2.2
      Example.squareEstimator rfl).2.2.2 _⟩

theorem orient_of_pos (c v p : Vector3f F)
    (h : FloatArith.lt FloatArith.zero (c.dot (v.sub p)) = true) : orient c v p = c := by
  unfold orient
  rw [FloatArith.lt_zero_asymm _ h]
  simp

theorem orient_of_neg (c v p : Vector3f F)
    (h : FloatArith.lt (c.dot (v.sub p)) FloatArith.zero = true) : orient c v p = c.neg := by
  simp [orient, h]

/-- C10 as stated fails, in the arithmetic with the overflow of binary32.  Three points of
the plane `z = 0`, the first at `(-2^127, 0, 0)`, candidate `c = (0, 0, 1)`, view points
`v1 = (0, 0, 1)` and `v2 = (2^127, 0, -1)`: the exact dot products `c . (v1 - p)` and
`c . (v2 - p)` are `1` and `-1`, so the view points lie strictly on opposite sides of the
plane.  Yet `v2 - p` overflows in its first coordinate, the computed dot product is
not-a-number, the test `< 0.0f` is false, and the entry of the first point is `(0, 0, 1)`
under both view points: it is not negated. -/
theorem opposite_sides_not_negated_on_overflow :
    ∃ r1 r2,
      NormalEstimation.estimateNormalsKNN Example.rangedPlaneFitter
        (Example.farEstimator.setViewPoint (Example.rvec 0 0 1)) 3 = some r1 ∧
      NormalEstimation.estimateNormalsKNN Example.rangedPlaneFitter
        (Example.farEstimator.setViewPoint (Example.rvec (2 ^ 127) 0 (-1))) 3 = some r2 ∧
      Example.farEstimator.input_points_[0]? = some (Example.rvec (-(2 ^ 127)) 0 0) ∧
      (Example.rangedPlaneFitter (positions Example.farEstimator.input_points_
        (Example.farEstimator.kd_tree_ptr_.kNNSearch (Example.rvec (-(2 ^ 127)) 0 0) 3).1)).col
          2 = Example.rvec 0 0 1 ∧
      Example.exactDot (Example.rvec 0 0 1) (Example.rvec 0 0 1)
        (Example.rvec (-(2 ^ 127)) 0 0) = some 1 ∧
      Example.exactDot (Example.rvec 0 0 1) (Example.rvec (2 ^ 127) 0 (-1))
        (Example.rvec (-(2 ^ 127)) 0 0) = some (-1) ∧
      FloatArith.isNaN ((Example.rvec 0 0 1).dot
        ((Example.rvec (2 ^ 127) 0 (-1)).sub (Example.rvec (-(2 ^ 127)) 0 0))) = true ∧
      r1.normals[0]? = some (Example.rvec 0 0 1) ∧
      r2.normals[0]? = some (Example.rvec 0 0 1) ∧
      (Example.rvec 0 0 1).neg ≠ Example.rvec 0 0 1 := by
  have h1 : (NormalEstimation.estimateNormalsKNN Example.rangedPlaneFitter
      (Example.farEstimator.setViewPoint (Example.rvec 0 0 1)) 3).map (fun r => r.normals) =
      some [Example.rvec 0 0 1, Example.rvec 0 0 1, Example.rvec 0 0 1] := by decide!
  have h2 : (NormalEstimation.estimateNormalsKNN Example.rangedPlaneFitter
      (Example.farEstimator.setViewPoint (Example.rvec (2 ^ 127) 0 (-1))) 3).map
        (fun r => r.normals) =
      some [Example.rvec 0 0 1, Example.rvec 0 0 (-1), Example.rvec 0 0 (-1)] := by decide!
  obtain ⟨r1, hr1, hn1⟩ := Option.map_eq_some'.mp h1
  obtain ⟨r2, hr2, hn2⟩ := Option.map_eq_some'.mp h2
  refine ⟨r1, r2, hr1, hr2, by decide!, by decide!, by decide!, by decide!, by decide!,
    by simp [hn1], by simp [hn2], by decide!⟩

/-- C10, amended (view-point flip).  Take two runs of the same strategy over the same points,
index and parameters, one with view point `v1` and one with `v2`.  At every index `i` where
the fit is performed, with candidate `c`, if the dot products computed in `float` arithmetic
as the code computes them satisfy `dot(c, v1 - points[i]) > 0` and
`dot(c, v2 - points[i]) < 0`, then the entry under `v1` is `c` and the entry under `v2` is
`-c`, its exact negation.  This holds in every arithmetic `F`, whatever its rounding. -/
theorem opposite_view_points_give_negated_normals (pca : PrincipalComponentAnalysis3D F)
    (est : NormalEstimation F) (v1 v2 : Vector3f F) :
    (∀ k r1 r2 (i : Nat) (p : Vector3f F), 3 ≤ est.input_points_.length →
      NormalEstimation.estimateNormalsKNN pca (est.setViewPoint v1) k = some r1 →
      NormalEstimation.estimateNormalsKNN pca (est.setViewPoint v2) k = some r2 →
      est.input_points_[i]? = some p →
      FloatArith.lt FloatArith.zero
        (((pca (positions est.input_points_ (est.kd_tree_ptr_.kNNSearch p k).1)).col 2).dot
          (v1.sub p)) = true →
      FloatArith.lt
        (((pca (positions est.input_points_ (est.kd_tree_ptr_.kNNSearch p k).1)).col 2).dot
          (v2.sub p)) FloatArith.zero = true →
      r1.normals[i]? =
        some ((pca (positions est.input_points_ (est.kd_tree_ptr_.kNNSearch p k).1)).col 2) ∧
      r2.normals[i]? =
        some ((pca (positions est.input_points_
          (est.kd_tree_ptr_.kNNSearch p k).1)).col 2).neg) ∧
    (∀ radius r1 r2 (i : Nat) (p : Vector3f F),
      NormalEstimation.estimateNormalsRadius pca (est.setViewPoint v1) radius = some r1 →
      NormalEstimation.estimateNormalsRadius pca (est.setViewPoint v2) radius = some r2 →
      est.input_points_[i]? = some p →
      3 ≤ (est.kd_tree_ptr_.radiusSearch p (FloatArith.mul radius radius)).1.length →
      FloatArith.lt FloatArith.zero
        (((pca (positions est.input_points_
          (est.kd_tree_ptr_.radiusSearch p (FloatArith.mul radius radius)).1)).col 2).dot
          (v1.sub p)) = true →
      FloatArith.lt
        (((pca (positions est.input_points_
          (est.kd_tree_ptr_.radiusSearch p (FloatArith.mul radius radius)).1)).col 2).dot
          (v2.sub p)) FloatArith.zero = true →
      r1.normals[i]? =
        some ((pca (positions est.input_points_
          (est.kd_tree_ptr_.radiusSearch p (FloatArith.mul radius radius)).1)).col 2) ∧
      r2.normals[i]? =
        some ((pca (positions est.input_points_
          (est.kd_tree_ptr_.radiusSearch p (FloatArith.mul radius radius)).1)).col 2).neg) ∧
    (∀ k radius r1 r2 (i : Nat) (p : Vector3f F),
      NormalEstimation.estimateNormalsKNNInRadius pca (est.setViewPoint v1) k radius =
        some r1 →
      NormalEstimation.estimateNormalsKNNInRadius pca (est.setViewPoint v2) k radius =
        some r2 →
      est.input_points_[i]? = some p →
      3 ≤ (est.kd_tree_ptr_.kNNInRadiusSearch p k (FloatArith.mul radius radius)).1.length →
      FloatArith.lt FloatArith.zero
        (((pca (positions est.input_points_
          (est.kd_tree_ptr_.kNNInRadiusSearch p k (FloatArith.mul radius radius)).1)).col 2).dot
          (v1.sub p)) = true →
      FloatArith.lt
        (((pca (positions est.input_points_
          (est.kd_tree_ptr_.kNNInRadiusSearch p k (FloatArith.mul radius radius)).1)).col 2).dot
          (v2.sub p)) FloatArith.zero = true →
      r1.normals[i]? =
        some ((pca (positions est.input_points_
          (est.kd_tree_ptr_.kNNInRadiusSearch p k (FloatArith.mul radius radius)).1)).col 2) ∧
      r2.normals[i]? =
        some ((pca (positions est.input_points_
          (est.kd_tree_ptr_.kNNInRadiusSearch p k
            (FloatArith.mul radius radius)).1)).col 2).neg) := by
  refine ⟨?_, ?_, ?_⟩
  · intro k r1 r2 i p h3 hr1 hr2 hp hpos hneg
    have e1 := (knn_entry pca (est.setViewPoint v1) k r1 i p h3 hr1 hp).2
    have e2 := (knn_entry pca (est.setViewPoint v2) k r2 i p h3 hr2 hp).2
    simp only [NormalEstimation.setViewPoint] at e1 e2
    rw [orient_of_pos _ _ _ hpos] at e1
    rw [orient_of_neg _ _ _ hneg] at e2
    exact ⟨e1, e2⟩
  · intro radius r1 r2 i p hr1 hr2 hp hL hpos hneg
    have e1 := (radius_entry pca (est.setViewPoint v1) radius r1 i p hr1 hp hL).2
    have e2 := (radius_entry pca (est.setViewPoint v2) radius r2 i p hr2 hp hL).2
    simp only [NormalEstimation.setViewPoint] at e1 e2
    rw [orient_of_pos _ _ _ hpos] at e1
    rw [orient_of_neg _ _ _ hneg] at e2
    exact ⟨e1, e2⟩
  · intro k radius r1 r2 i p hr1 hr2 hp hL hpos hneg
    have e1 := (knnInRadius_entry pca (est.setViewPoint v1) k radius r1 i p hr1 hp hL).2
    have e2 := (knnInRadius_entry pca (est.setViewPoint v2) k radius r2 i p hr2 hp hL).2
    simp only [NormalEstimation.setViewPoint] at e1 e2
    rw [orient_of_pos _ _ _ hpos] at e1
    rw [orient_of_neg _ _ _ hneg] at e2
    exact ⟨e1, e2⟩

/-- Instance of C10, the view-point-flip scenario: the coplanar square with `K = 3` seen
from `(0, 0, 1)` and from `(0, 0, -1)`; the first entry is `(0, 0, 1)` in the first run and
`(0, 0, -1)` in the second. -/
theorem opposite_view_points_give_negated_normals_witness :
    ∃ r1 r2,
      NormalEstimation.estimateNormalsKNN Example.planeFitter
        (Example.squareEstimator.setViewPoint (Example.vec 0 0 1)) 3 = some r1 ∧
      NormalEstimation.estimateNormalsKNN Example.planeFitter
        (Example.squareEstimator.setViewPoint (Example.vec 0 0 (-1))) 3 = some r2 ∧
      r1.normals[0]? = some (Example.vec 0 0 1) ∧
      r2.normals[0]? = some (Example.vec 0 0 1).neg := by
  have hs1 : (NormalEstimation.estimateNormalsKNN Example.planeFitter
      (Example.squareEstimator.setViewPoint (Example.vec 0 0 1)) 3).isSome = true := by
    decide!
  have hs2 : (NormalEstimation.estimateNormalsKNN Example.planeFitter
      (Example.squareEstimator.setViewPoint (Example.vec 0 0 (-1))) 3).isSome = true := by
    decide!
  obtain ⟨r1, hr1⟩ := Option.isSome_iff_exists.mp hs1
  obtain ⟨r2, hr2⟩ := Option.isSome_iff_exists.mp hs2
  have h := (opposite_view_points_give_negated_normals Example.planeFitter
    Example.squareEstimator (Example.vec 0 0 1) (Example.vec 0 0 (-1))).1 3 r1 r2 0
    (Example.vec 0 0 0) (by decide) hr1 hr2 (by decide!) (by decide!) (by decide!)
  exact ⟨r1, r2, hr1, hr2, h.1, h.2⟩

/-- C11 (view point).  Right after each of the four constructors `getViewPoint` returns the
origin `(0, 0, 0)`; and for every estimator and every vector `vp`, after `setViewPoint(vp)`
`getViewPoint` returns `vp` while the point reference, the container reference, the index
handle and the ownership flag are unchanged. -/
theorem view_point_defaults_to_origin_and_is_settable :
    (∀ (build : List (Vector3f F) → KDTree3D F) (points : List (Vector3f F)),
      (NormalEstimation.fromPoints build points).getViewPoint =
        ⟨FloatArith.zero, FloatArith.zero, FloatArith.zero⟩) ∧
    (∀ (points : List (Vector3f F)) (kd_tree : KDTree3D F),
      (NormalEstimation.fromPointsWithTree points kd_tree).getViewPoint =
        ⟨FloatArith.zero, FloatArith.zero, FloatArith.zero⟩) ∧
    (∀ (build : List (Vector3f F) → KDTree3D F) (cloud : PointCloud F),
      (NormalEstimation.fromCloud build cloud).getViewPoint =
        ⟨FloatArith.zero, FloatArith.zero, FloatArith.zero⟩) ∧
    (∀ (cloud : PointCloud F) (kd_tree : KDTree3D F),
      (NormalEstimation.fromCloudWithTree cloud kd_tree).getViewPoint =
        ⟨FloatArith.zero, FloatArith.zero, FloatArith.zero⟩) ∧
    (∀ (est : NormalEstimation F) (vp : Vector3f F),
      (est.setViewPoint vp).getViewPoint = vp ∧
      (est.setViewPoint vp).input_points_ = est.input_points_ ∧
      (est.setViewPoint vp).input_cloud_ = est.input_cloud_ ∧
      (est.setViewPoint vp).kd_tree_ptr_ = est.kd_tree_ptr_ ∧
      (est.setViewPoint vp).kd_tree_owned_ = est.kd_tree_owned_) :=
  ⟨fun _ _ => rfl, fun _ _ => rfl, fun _ _ => rfl, fun _ _ => rfl,
    fun _ _ => ⟨rfl, rfl, rfl, rfl, rfl⟩⟩

/-- C16 (ownership).  For the four constructors the ownership flag is true exactly when no
index is supplied, in which case the index is the one built over the given points or over
the container's points, and otherwise the index is the supplied one; the container reference
is present exactly for the two constructors over a container; and the destructor releases
the index if and only if the flag is true. -/
theorem index_owned_iff_not_supplied :
    (∀ (build : List (Vector3f F) → KDTree3D F) (points : List (Vector3f F)),
      (NormalEstimation.fromPoints build points).kd_tree_owned_ = true ∧
      (NormalEstimation.fromPoints build points).kd_tree_ptr_ = build points ∧
      (NormalEstimation.fromPoints build points).input_points_ = points ∧
      (NormalEstimation.fromPoints build points).input_cloud_ = none) ∧
    (∀ (points : List (Vector3f F)) (kd_tree : KDTree3D F),
      (NormalEstimation.fromPointsWithTree points kd_tree).kd_tree_owned_ = false ∧
      (NormalEstimation.fromPointsWithTree points kd_tree).kd_tree_ptr_ = kd_tree ∧
      (NormalEstimation.fromPointsWithTree points kd_tree).input_points_ = points ∧
      (NormalEstimation.fromPointsWithTree points kd_tree).input_cloud_ = none) ∧
    (∀ (build : List (Vector3f F) → KDTree3D F) (cloud : PointCloud F),
      (NormalEstimation.fromCloud build cloud).kd_tree_owned_ = true ∧
      (NormalEstimation.fromCloud build cloud).kd_tree_ptr_ = build cloud.points ∧
      (NormalEstimation.fromCloud build cloud).input_points_ = cloud.points ∧
      (NormalEstimation.fromCloud build cloud).input_cloud_ = some cloud) ∧
    (∀ (cloud : PointCloud F) (kd_tree : KDTree3D F),
      (NormalEstimation.fromCloudWithTree cloud kd_tree).kd_tree_owned_ = false ∧
      (NormalEstimation.fromCloudWithTree cloud kd_tree).kd_tree_ptr_ = kd_tree ∧
      (NormalEstimation.fromCloudWithTree cloud kd_tree).input_points_ = cloud.points ∧
      (NormalEstimation.fromCloudWithTree cloud kd_tree).input_cloud_ = some cloud) ∧
    (∀ est : NormalEstimation F, est.destroy = true ↔ est.kd_tree_owned_ = true) := by
  refine ⟨fun _ _ => ⟨rfl, rfl, rfl, rfl⟩, fun _ _ => ⟨rfl, rfl, rfl, rfl⟩,
    fun _ _ => ⟨rfl, rfl, rfl, rfl⟩, fun _ _ => ⟨rfl, rfl, rfl, rfl⟩, ?_⟩
  intro est
  cases h : est.kd_tree_owned_ <;> simp [NormalEstimation.destroy, h]

theorem float_mul_neg_neg (a : F) :
    FloatArith.mul (FloatArith.neg a) (FloatArith.neg a) = FloatArith.mul a a := by
  rw [FloatArith.neg_mul_left, FloatArith.neg_mul_right, FloatArith.neg_twice]

/-- C17 (sign of the radius).  Only `radius * radius` reaches the index, so for every radius
`r` and every `k` the radius and hybrid estimations with `-r` equal those with `r`, calls to
the collaborators included; in particular a negative radius is processed like its absolute
value and never rejected. -/
theorem radius_sign_is_irrelevant (pca : PrincipalComponentAnalysis3D F)
    (est : NormalEstimation F) :
    (∀ r, NormalEstimation.estimateNormalsRadius pca est (FloatArith.neg r) =
      NormalEstimation.estimateNormalsRadius pca est r) ∧
    (∀ k r, NormalEstimation.estimateNormalsKNNInRadius pca est k (FloatArith.neg r) =
      NormalEstimation.estimateNormalsKNNInRadius pca est k r) ∧
    (∀ q : ℚ, Scalar.neg (Scalar.fin q) = Scalar.fin (-q)) ∧
    (est.kd_tree_ptr_.InRange est.input_points_.length →
      ∀ k r,
        (NormalEstimation.estimateNormalsRadius pca est (FloatArith.neg r)).isSome = true ∧
        (NormalEstimation.estimateNormalsKNNInRadius pca est k (FloatArith.neg r)).isSome =
          true) := by
  refine ⟨?_, ?_, fun _ => rfl, ?_⟩
  · intro r
    simp only [NormalEstimation.estimateNormalsRadius, float_mul_neg_neg]
  · intro k r
    simp only [NormalEstimation.estimateNormalsKNNInRadius, float_mul_neg_neg]
  · intro hr k r
    exact ⟨radius_isSome pca est _ hr, knnInRadius_isSome pca est k _ hr⟩

/-- Instance of C17: on the coplanar square the radius estimation with radius `-11/10`
completes and equals the one with radius `11/10`. -/
theorem radius_sign_is_irrelevant_witness :
    Example.squareEstimator.kd_tree_ptr_.InRange Example.squareEstimator.input_points_.length ∧
    (NormalEstimation.estimateNormalsRadius Example.planeFitter Example.squareEstimator
      (Scalar.neg (Scalar.fin (11 / 10)))).isSome = true ∧
    NormalEstimation.estimateNormalsRadius Example.planeFitter Example.squareEstimator
        (Scalar.neg (Scalar.fin (11 / 10))) =
      NormalEstimation.estimateNormalsRadius Example.planeFitter Example.squareEstimator
        (Scalar.fin (11 / 10)) :=
  ⟨Example.bruteForce_inRange Example.square,
   ((radius_sign_is_irrelevant Example.planeFitter Example.squareEstimator).2.2.2
      (Example.bruteForce_inRange Example.square) 0 (Scalar.fin (11 / 10))).1,
   (radius_sign_is_irrelevant Example.planeFitter Example.squareEstimator).1 _⟩

/-- C12 (container after an in-place call).  Let the estimator be built over a container:
its container reference is `cloud` and its point reference is `cloud.points`, as the two
container constructors establish and `setViewPoint` preserves.  Whenever one of the four
in-place methods completes, the container's normal array has the length of its point array,
whatever the normal array held before, and the point array is unchanged; the methods
complete as soon as the index returns only indices of points of the set. -/
theorem in_place_normals_match_points (pca : PrincipalComponentAnalysis3D F)
    (est : NormalEstimation F) (cloud : PointCloud F) (hc : est.input_cloud_ = some cloud)
    (hp : est.input_points_ = cloud.points) :
    (∀ k est' tr, NormalEstimation.estimateNormalsInPlaceKNN pca est k = some (est', tr) →
      ∃ cloud', est'.input_cloud_ = some cloud' ∧
        cloud'.normals.length = cloud'.points.length ∧ cloud'.points = cloud.points) ∧
    (∀ radius est' tr,
      NormalEstimation.estimateNormalsInPlaceRadius pca est radius = some (est', tr) →
      ∃ cloud', est'.input_cloud_ = some cloud' ∧
        cloud'.normals.length = cloud'.points.length ∧ cloud'.points = cloud.points) ∧
    (∀ k radius est' tr,
      NormalEstimation.estimateNormalsInPlaceKNNInRadius pca est k radius = some (est', tr) →
      ∃ cloud', est'.input_cloud_ = some cloud' ∧
        cloud'.normals.length = cloud'.points.length ∧ cloud'.points = cloud.points) ∧
    (∀ nh est' tr, NormalEstimation.estimateNormalsInPlace pca est nh = some (est', tr) →
      ∃ cloud', est'.input_cloud_ = some cloud' ∧
        cloud'.normals.length = cloud'.points.length ∧ cloud'.points = cloud.points) ∧
    (est.kd_tree_ptr_.InRange est.input_points_.length →
      (∀ k, (NormalEstimation.estimateNormalsInPlaceKNN pca est k).isSome = true) ∧
      (∀ radius, (NormalEstimation.estimateNormalsInPlaceRadius pca est radius).isSome =
        true) ∧
      (∀ k radius,
        (NormalEstimation.estimateNormalsInPlaceKNNInRadius pca est k radius).isSome =
          true) ∧
      (∀ nh, (NormalEstimation.estimateNormalsInPlace pca est nh).isSome = true)) ∧
    (∀ (build : List (Vector3f F) → KDTree3D F) (c : PointCloud F) (vp : Vector3f F),
      ((NormalEstimation.fromCloud build c).setViewPoint vp).input_cloud_ = some c ∧
      ((NormalEstimation.fromCloud build c).setViewPoint vp).input_points_ = c.points) ∧
    (∀ (c : PointCloud F) (kd_tree : KDTree3D F) (vp : Vector3f F),
      ((NormalEstimation.fromCloudWithTree c kd_tree).setViewPoint vp).input_cloud_ = some c ∧
      ((NormalEstimation.fromCloudWithTree c kd_tree).setViewPoint vp).input_points_ =
        c.points) := by
  have hnh_len : ∀ nh r, NormalEstimation.estimateNormals pca est nh = some r →
      r.normals.length = est.input_points_.length := by
    intro nh r h
    unfold NormalEstimation.estimateNormals at h
    cases hty : nh.type <;> simp only [hty] at h
    · exact knn_length pca est _ r h
    · exact (radius_run pca est _ r h).1
    · exact (knnInRadius_run pca est _ _ r h).1
  have hnh_some : est.kd_tree_ptr_.InRange est.input_points_.length →
      ∀ nh, (NormalEstimation.estimateNormals pca est nh).isSome = true := by
    intro hr nh
    unfold NormalEstimation.estimateNormals
    cases nh.type
    · exact knn_isSome pca est _ hr
    · exact radius_isSome pca est _ hr
    · exact knnInRadius_isSome pca est _ _ hr
  refine ⟨?_, ?_, ?_, ?_, ?_, fun _ _ _ => ⟨rfl, rfl⟩, fun _ _ _ => ⟨rfl, rfl⟩⟩
  · intro k est' tr h
    simp only [NormalEstimation.estimateNormalsInPlaceKNN, hc] at h
    cases hr : NormalEstimation.estimateNormalsKNN pca est k with
    | none => simp [hr] at h
    | some r =>
      simp only [hr, Option.bind_eq_bind, Option.some_bind, Option.some.injEq,
        Prod.mk.injEq] at h
      obtain ⟨h1, -⟩ := h
      subst h1
      exact ⟨_, rfl, by simpa [hp] using knn_length pca est k r hr, rfl⟩
  · intro radius est' tr h
    simp only [NormalEstimation.estimateNormalsInPlaceRadius, hc] at h
    cases hr : NormalEstimation.estimateNormalsRadius pca est radius with
    | none => simp [hr] at h
    | some r =>
      simp only [hr, Option.bind_eq_bind, Option.some_bind, Option.some.injEq,
        Prod.mk.injEq] at h
      obtain ⟨h1, -⟩ := h
      subst h1
      exact ⟨_, rfl, by simpa [hp] using (radius_run pca est radius r hr).1, rfl⟩
  · intro k radius est' tr h
    simp only [NormalEstimation.estimateNormalsInPlaceKNNInRadius, hc] at h
    cases hr : NormalEstimation.estimateNormalsKNNInRadius pca est k radius with
    | none => simp [hr] at h
    | some r =>
      simp only [hr, Option.bind_eq_bind, Option.some_bind, Option.some.injEq,
        Prod.mk.injEq] at h
      obtain ⟨h1, -⟩ := h
      subst h1
      exact ⟨_, rfl, by simpa [hp] using (knnInRadius_run pca est k radius r hr).1, rfl⟩
  · intro nh est' tr h
    simp only [NormalEstimation.estimateNormalsInPlace, hc] at h
    cases hr : NormalEstimation.estimateNormals pca est nh with
    | none => simp [hr] at h
    | some r =>
      simp only [hr, Option.bind_eq_bind, Option.some_bind, Option.some.injEq,
        Prod.mk.injEq] at h
      obtain ⟨h1, -⟩ := h
      subst h1
      exact ⟨_, rfl, by simpa [hp] using hnh_len nh r hr, rfl⟩
  · intro hr
    refine ⟨?_, ?_, ?_, ?_⟩
    · intro k
      obtain ⟨r, h⟩ := Option.isSome_iff_exists.mp (knn_isSome pca est k hr)
      simp [NormalEstimation.estimateNormalsInPlaceKNN, hc, h]
    · intro radius
      obtain ⟨r, h⟩ := Option.isSome_iff_exists.mp (radius_isSome pca est radius hr)
      simp [NormalEstimation.estimateNormalsInPlaceRadius, hc, h]
    · intro k radius
      obtain ⟨r, h⟩ := Option.isSome_iff_exists.mp (knnInRadius_isSome pca est k radius hr)
      simp [NormalEstimation.estimateNormalsInPlaceKNNInRadius, hc, h]
    · intro nh
      obtain ⟨r, h⟩ := Option.isSome_iff_exists.mp (hnh_some hr nh)
      simp [NormalEstimation.estimateNormalsInPlace, hc, h]

/-- Instance of C12: the container holding the square and a single stale normal; after the
in-place KNN call with `K = 3` it holds four normals and the same four points. -/
theorem in_place_normals_match_points_witness :
    Example.cloudEstimator.input_cloud_ = some Example.squareCloud ∧
    Example.cloudEstimator.input_points_ = Example.squareCloud.points ∧
    Example.squareCloud.normals.length ≠ Example.squareCloud.points.length ∧
    ∃ est' tr,
      NormalEstimation.estimateNormalsInPlaceKNN Example.planeFitter Example.cloudEstimator 3 =
        some (est', tr) ∧
      ∃ cloud', est'.input_cloud_ = some cloud' ∧
        cloud'.normals.length = cloud'.points.length ∧
        cloud'.points = Example.squareCloud.points := by
  have hthm := in_place_normals_match_points Example.planeFitter Example.cloudEstimator
    Example.squareCloud rfl rfl
  have hsome := (hthm.2.2.2.2.1 (Example.bruteForce_inRange Example.square)).1 3
  obtain ⟨⟨est', tr⟩, h⟩ := Option.isSome_iff_exists.mp hsome
  exact ⟨rfl, rfl, by decide, est', tr, h, hthm.1 3 est' tr h⟩

theorem Example.bruteForce_hybridAtMostK (points : List (Vector3f Scalar)) :
    (Example.bruteForce points).HybridAtMostK := by
  intro q k r
  exact List.length_take_le _ _

/-- C18 (hybrid strategy with `k < 3`).  When the hybrid query of the index returns at most
`k` neighbour indices, then for `k = 0, 1, 2` and every radius, point set and view point
`estimateNormalsKNNInRadius(k, radius)` completes, has one entry per point, every entry is
the undefined sentinel, and the fitter is never applied. -/
theorem hybrid_all_sentinel_below_three_requested (pca : PrincipalComponentAnalysis3D F)
    (est : NormalEstimation F) (k : Nat) (radius : F)
    (hcontract : est.kd_tree_ptr_.HybridAtMostK) (hk : k < 3) :
    ∃ r, NormalEstimation.estimateNormalsKNNInRadius pca est k radius = some r ∧
      r.normals.length = est.input_points_.length ∧ AllSentinel r.normals ∧
      ∀ e ∈ r.trace, e.isFit = false := by
  simp only [NormalEstimation.estimateNormalsKNNInRadius]
  apply foldlM_range_all_sentinel _
    (knnInRadiusOutcome pca est k (FloatArith.mul radius radius)) est.input_points_.length
    (fun st i hi hlen => knnInRadius_body_eq pca est k _ st i (hlen ▸ hi) hlen)
  intro i hi
  have hp := List.getElem?_eq_getElem hi
  refine ⟨Event.kNNInRadiusSearch est.input_points_[i] k (FloatArith.mul radius radius), ?_,
    rfl⟩
  rw [knnInRadiusOutcome_pointOutcome pca est k _ i _ hp]
  have hlen := hcontract est.input_points_[i] k (FloatArith.mul radius radius)
  have hlt : (est.kd_tree_ptr_.kNNInRadiusSearch est.input_points_[i] k
      (FloatArith.mul radius radius)).1.length < 3 := by omega
  simp [pointOutcome, hlt]

/-- Instance of C18: the coplanar square with its exhaustive-search index, `k = 2` and
radius 2, a radius within which every point has all four points. -/
theorem hybrid_all_sentinel_below_three_requested_witness :
    Example.squareEstimator.kd_tree_ptr_.HybridAtMostK ∧ 2 < 3 ∧
    ∃ r, NormalEstimation.estimateNormalsKNNInRadius Example.planeFitter
        Example.squareEstimator 2 (Scalar.fin 2) = some r ∧
      r.normals.length = Example.squareEstimator.input_points_.length ∧
      AllSentinel r.normals ∧ ∀ e ∈ r.trace, e.isFit = false :=
  ⟨Example.bruteForce_hybridAtMostK Example.square, by decide,
   hybrid_all_sentinel_below_three_requested Example.planeFitter Example.squareEstimator 2
     (Scalar.fin 2) (Example.bruteForce_hybridAtMostK Example.square) (by decide)⟩

theorem queriesOf_tracesUpTo (entry : Nat → Option (Vector3f F × List (Event F)))
    (q : Nat → Event F)
    (hq : ∀ i, (q i).isQuery = true) (m : Nat)
    (h : ∀ i, i < m → ∃ e, entry i = some e ∧
      (e.2 = [q i] ∨ ∃ nbh, e.2 = [q i, Event.pca nbh])) :
    queriesOf (tracesUpTo entry m) = (List.range m).map q := by
  induction m with
  | zero => simp [queriesOf, tracesUpTo]
  | succ m ih =>
    have ih' := ih (fun i hi => h i (by omega))
    simp only [queriesOf] at ih' ⊢
    obtain ⟨e, he, hform⟩ := h m (by omega)
    rw [tracesUpTo_succ, List.filter_append, ih', List.range_succ, List.map_append, he]
    rcases hform with h1 | ⟨nbh, h1⟩
    · simp [h1, hq]
    · simp only [h1, List.map_cons, List.map_nil, List.append_cancel_left_eq]
      rw [List.filter_cons_of_pos (hq m), List.filter_cons_of_neg (by simp [Event.isQuery]),
        List.filter_nil]

theorem map_range_eq_map {α β : Type} (l : List α) (f : α → β) (g : Nat → β)
    (h : ∀ i a, l[i]? = some a → g i = f a) : (List.range l.length).map g = l.map f := by
  apply List.ext_getElem?
  intro i
  by_cases hi : i < l.length
  · have hl : l[i]? = some l[i] := List.getElem?_eq_getElem hi
    simp [List.getElem?_map, List.getElem?_range hi, hl, h i _ hl]
  · have hl : l[i]? = none := List.getElem?_eq_none (by omega)
    have hr : (List.range l.length)[i]? = none :=
      List.getElem?_eq_none (by simp; omega)
    simp [List.getElem?_map, hl, hr]

theorem queriesOf_run (pca : PrincipalComponentAnalysis3D F) (est : NormalEstimation F)
    (outcome : Nat → Option (Vector3f F × List (Event F))) (mk : Vector3f F → Event F)
    (query : Vector3f F → List Nat) (hmk : ∀ p, (mk p).isQuery = true)
    (hout : ∀ i p, est.input_points_[i]? = some p →
      outcome i = pointOutcome pca est true (mk p) p (query p))
    (hall : ∀ i, i < est.input_points_.length → ∃ e, outcome i = some e) :
    queriesOf (tracesUpTo outcome est.input_points_.length) = est.input_points_.map mk := by
  rw [← map_range_eq_map est.input_points_ mk
    (fun i => mk (est.input_points_.getD i Vector3f.Zero))
    (fun i a h => by simp [List.getD, h])]
  apply queriesOf_tracesUpTo _ _ (fun i => hmk _)
  intro i hi
  obtain ⟨e, he⟩ := hall i hi
  have hp := List.getElem?_eq_getElem hi
  refine ⟨e, he, ?_⟩
  rw [hout i _ hp] at he
  have hq : est.input_points_.getD i Vector3f.Zero = est.input_points_[i] := by
    simp [List.getD, hp]
  rw [hq]
  rcases pointOutcome_value pca est true _ _ _ e he with ⟨-, -, h1⟩ | ⟨-, -, h1⟩
  · left
    rw [h1]
  · right
    exact ⟨_, by rw [h1]⟩

/-- C13 (arguments of the queries).  In a completed run of `estimateNormalsRadius(radius)`
the queries issued to the index are, point by point, `radiusSearch(points[i], radius *
radius)`; in a completed run of `estimateNormalsKNNInRadius(k, radius)` they are
`kNNInRadiusSearch(points[i], k, radius * radius)` with the caller's `k`.  No other query is
issued. -/
theorem queries_use_own_point_and_squared_radius (pca : PrincipalComponentAnalysis3D F)
    (est : NormalEstimation F) :
    (∀ radius r, NormalEstimation.estimateNormalsRadius pca est radius = some r →
      queriesOf r.trace =
        est.input_points_.map (fun p => Event.radiusSearch p (FloatArith.mul radius radius))) ∧
    (∀ k radius r, NormalEstimation.estimateNormalsKNNInRadius pca est k radius = some r →
      queriesOf r.trace =
        est.input_points_.map
          (fun p => Event.kNNInRadiusSearch p k (FloatArith.mul radius radius))) := by
  refine ⟨?_, ?_⟩
  · intro radius r hr
    obtain ⟨-, hall, htr⟩ := radius_run pca est radius r hr
    rw [htr]
    exact queriesOf_run pca est _ _
      (fun p => (est.kd_tree_ptr_.radiusSearch p (FloatArith.mul radius radius)).1)
      (fun _ => rfl)
      (fun i p hp => radiusOutcome_pointOutcome pca est _ i p hp)
      (fun i hi => by obtain ⟨e, he, -⟩ := hall i hi; exact ⟨e, he⟩)
  · intro k radius r hr
    obtain ⟨-, hall, htr⟩ := knnInRadius_run pca est k radius r hr
    rw [htr]
    exact queriesOf_run pca est _ _
      (fun p => (est.kd_tree_ptr_.kNNInRadiusSearch p k (FloatArith.mul radius radius)).1)
      (fun _ => rfl)
      (fun i p hp => knnInRadiusOutcome_pointOutcome pca est k _ i p hp)
      (fun i hi => by obtain ⟨e, he, -⟩ := hall i hi; exact ⟨e, he⟩)

/-- Instance of C13: on the coplanar square with radius `11/10` the run completes and the
four queries carry the four points and the squared radius `121/100`. -/
theorem queries_use_own_point_and_squared_radius_witness :
    ∃ r, NormalEstimation.estimateNormalsRadius Example.planeFitter Example.squareEstimator
        (Scalar.fin (11 / 10)) = some r ∧
      queriesOf r.trace =
        [Event.radiusSearch (Example.vec 0 0 0) (Scalar.fin (121 / 100)),
         Event.radiusSearch (Example.vec 1 0 0) (Scalar.fin (121 / 100)),
         Event.radiusSearch (Example.vec 0 1 0) (Scalar.fin (121 / 100)),
         Event.radiusSearch (Example.vec 1 1 0) (Scalar.fin (121 / 100))] := by
  have hsome : (NormalEstimation.estimateNormalsRadius Example.planeFitter
      Example.squareEstimator (Scalar.fin (11 / 10))).isSome = true := by decide!
  obtain ⟨r, hr⟩ := Option.isSome_iff_exists.mp hsome
  refine ⟨r, hr, ?_⟩
  rw [(queries_use_own_point_and_squared_radius Example.planeFitter
    Example.squareEstimator).1 (Scalar.fin (11 / 10)) r hr]
  decide!

theorem Vector3f.neg_neg (v : Vector3f F) : v.neg.neg = v := by
  simp [Vector3f.neg, FloatArith.neg_twice]

theorem Vector3f.neg_nanVector : (nanVector : Vector3f F).neg = nanVector := by
  simp only [nanVector, Vector3f.Constant, Vector3f.neg, FloatArith.neg_quiet_NaN]

theorem Vector3f.neg_eq_nanVector_iff (v : Vector3f F) : v.neg = nanVector ↔ v = nanVector := by
  constructor
  · intro h
    have h2 := congrArg Vector3f.neg h
    rw [Vector3f.neg_neg, Vector3f.neg_nanVector] at h2
    exact h2
  · intro h
    rw [h]
    exact Vector3f.neg_nanVector

theorem orient_eq_or_neg (c v p : Vector3f F) : orient c v p = c ∨ orient c v p = c.neg := by
  unfold orient
  split
  · exact Or.inr rfl
  · exact Or.inl rfl

theorem sameUpToSign_refl (a : Vector3f F) : SameUpToSign a a := ⟨Iff.rfl, Or.inl rfl⟩

theorem sameUpToSign_orient (c v1 v2 p : Vector3f F) :
    SameUpToSign (orient c v1 p) (orient c v2 p) := by
  rcases orient_eq_or_neg c v1 p with h1 | h1 <;> rcases orient_eq_or_neg c v2 p with h2 | h2 <;>
    rw [h1, h2]
  · exact sameUpToSign_refl c
  · exact ⟨(Vector3f.neg_eq_nanVector_iff c).symm, Or.inr rfl⟩
  · exact ⟨Vector3f.neg_eq_nanVector_iff c, Or.inr (Vector3f.neg_neg c).symm⟩
  · exact sameUpToSign_refl _

theorem sameUpToSign_pointOutcome (pca : PrincipalComponentAnalysis3D F) (est : NormalEstimation F)
    (v1 v2 : Vector3f F) (guarded : Bool) (q : Event F) (p : Vector3f F) (L : List Nat)
    (e1 e2 : Vector3f F × List (Event F))
    (h1 : pointOutcome pca (est.setViewPoint v1) guarded q p L = some e1)
    (h2 : pointOutcome pca (est.setViewPoint v2) guarded q p L = some e2) :
    SameUpToSign e1.1 e2.1 := by
  rcases pointOutcome_value pca _ guarded q p L e1 h1 with ⟨hg, hl, ha⟩ | ⟨hn, -, ha⟩ <;>
    rcases pointOutcome_value pca _ guarded q p L e2 h2 with ⟨hg', hl', hb⟩ | ⟨hn', -, hb⟩
  · rw [ha, hb]
    exact sameUpToSign_refl _
  · exact absurd ⟨hg, hl⟩ hn'
  · exact absurd ⟨hg', hl'⟩ hn
  · rw [ha, hb]
    exact sameUpToSign_orient _ v1 v2 p

theorem pointOutcome_isSome_setViewPoint (pca : PrincipalComponentAnalysis3D F)
    (est : NormalEstimation F) (v1 v2 : Vector3f F) (guarded : Bool) (q : Event F) (p : Vector3f F)
    (L : List Nat)
    (h : (pointOutcome pca (est.setViewPoint v1) guarded q p L).isSome = true) :
    (pointOutcome pca (est.setViewPoint v2) guarded q p L).isSome = true := by
  unfold pointOutcome at h ⊢
  simp only [NormalEstimation.setViewPoint] at h ⊢
  split
  · rfl
  · rename_i hg
    rw [if_neg hg] at h
    cases hgn : gatherNeighborhood est.input_points_ L with
    | none => simp [hgn] at h
    | some nbh => simp

/-- A loop as in `foldlM_range_spec` that completes has an outcome for every iteration. -/
theorem foldlM_range_outcomes (step : Run F → Nat → Option (Run F))
    (entry : Nat → Option (Vector3f F × List (Event F))) (n : Nat)
    (hstep : ∀ st i, i < n → st.normals.length = n →
      step st i = (entry i).map (applyOutcome st i))
    (h : ((List.range n).foldlM step
      { normals := List.replicate n Vector3f.uninitialized, trace := [] }).isSome = true) :
    ∀ i, i < n → (entry i).isSome = true := by
  obtain ⟨r, hr⟩ := Option.isSome_iff_exists.mp h
  obtain ⟨-, hlow, -⟩ := foldlM_range_spec step entry n hstep _ (by simp) n (Nat.le_refl _) r hr
  intro i hi
  obtain ⟨e, he, -⟩ := hlow i hi
  simp [he]

theorem knn_isSome_setViewPoint (pca : PrincipalComponentAnalysis3D F) (est : NormalEstimation F)
    (v1 v2 : Vector3f F) (k : Nat)
    (h : (NormalEstimation.estimateNormalsKNN pca (est.setViewPoint v1) k).isSome = true) :
    (NormalEstimation.estimateNormalsKNN pca (est.setViewPoint v2) k).isSome = true := by
  by_cases hs : (est.setViewPoint v2).input_points_.length < 3
  · simp [knn_small pca _ k hs]
  · have hs1 : ¬ (est.setViewPoint v1).input_points_.length < 3 := hs
    simp only [NormalEstimation.estimateNormalsKNN, hs, hs1, if_false] at h ⊢
    have hall := foldlM_range_outcomes _ (knnOutcome pca (est.setViewPoint v1) k) _
      (fun st i hi hlen => knn_body_eq pca _ k st i (hlen ▸ hi) hlen) h
    refine foldlM_range_isSome _ (knnOutcome pca (est.setViewPoint v2) k) _
      (fun st i hi hlen => knn_body_eq pca _ k st i (hlen ▸ hi) hlen) _ (by simp) _
      (Nat.le_refl _) ?_
    intro i hi
    have hp : est.input_points_[i]? = some est.input_points_[i] := List.getElem?_eq_getElem hi
    have h1 := hall i hi
    rw [knnOutcome_pointOutcome pca (est.setViewPoint v1) k i _ hp] at h1
    rw [knnOutcome_pointOutcome pca (est.setViewPoint v2) k i _ hp]
    exact pointOutcome_isSome_setViewPoint pca est v1 v2 _ _ _ _ h1

theorem radius_isSome_setViewPoint (pca : PrincipalComponentAnalysis3D F)
    (est : NormalEstimation F) (v1 v2 : Vector3f F) (radius : F)
    (h : (NormalEstimation.estimateNormalsRadius pca (est.setViewPoint v1) radius).isSome =
      true) :
    (NormalEstimation.estimateNormalsRadius pca (est.setViewPoint v2) radius).isSome = true := by
  simp only [NormalEstimation.estimateNormalsRadius] at h ⊢
  have hall := foldlM_range_outcomes _
    (radiusOutcome pca (est.setViewPoint v1) (FloatArith.mul radius radius)) _
    (fun st i hi hlen => radius_body_eq pca _ _ st i (hlen ▸ hi) hlen) h
  refine foldlM_range_isSome _
    (radiusOutcome pca (est.setViewPoint v2) (FloatArith.mul radius radius)) _
    (fun st i hi hlen => radius_body_eq pca _ _ st i (hlen ▸ hi) hlen) _ (by simp) _
    (Nat.le_refl _) ?_
  intro i hi
  have hp : est.input_points_[i]? = some est.input_points_[i] := List.getElem?_eq_getElem hi
  have h1 := hall i hi
  rw [radiusOutcome_pointOutcome pca (est.setViewPoint v1) _ i _ hp] at h1
  rw [radiusOutcome_pointOutcome pca (est.setViewPoint v2) _ i _ hp]
  exact pointOutcome_isSome_setViewPoint pca est v1 v2 _ _ _ _ h1

theorem knnInRadius_isSome_setViewPoint (pca : PrincipalComponentAnalysis3D F)
    (est : NormalEstimation F) (v1 v2 : Vector3f F) (k : Nat) (radius : F)
    (h : (NormalEstimation.estimateNormalsKNNInRadius pca (est.setViewPoint v1) k
      radius).isSome = true) :
    (NormalEstimation.estimateNormalsKNNInRadius pca (est.setViewPoint v2) k radius).isSome =
      true := by
  simp only [NormalEstimation.estimateNormalsKNNInRadius] at h ⊢
  have hall := foldlM_range_outcomes _
    (knnInRadiusOutcome pca (est.setViewPoint v1) k (FloatArith.mul radius radius)) _
    (fun st i hi hlen => knnInRadius_body_eq pca _ k _ st i (hlen ▸ hi) hlen) h
  refine foldlM_range_isSome _
    (knnInRadiusOutcome pca (est.setViewPoint v2) k (FloatArith.mul radius radius)) _
    (fun st i hi hlen => knnInRadius_body_eq pca _ k _ st i (hlen ▸ hi) hlen) _ (by simp) _
    (Nat.le_refl _) ?_
  intro i hi
  have hp : est.input_points_[i]? = some est.input_points_[i] := List.getElem?_eq_getElem hi
  have h1 := hall i hi
  rw [knnInRadiusOutcome_pointOutcome pca (est.setViewPoint v1) k _ i _ hp] at h1
  rw [knnInRadiusOutcome_pointOutcome pca (est.setViewPoint v2) k _ i _ hp]
  exact pointOutcome_isSome_setViewPoint pca est v1 v2 _ _ _ _ h1

theorem sameUpToSigns_of_outcomes (r1 r2 : Run F) (n : Nat)
    (o1 o2 : Nat → Option (Vector3f F × List (Event F)))
    (hlen1 : r1.normals.length = n) (hlen2 : r2.normals.length = n)
    (h1 : ∀ i, i < n → ∃ e, o1 i = some e ∧ r1.normals[i]? = some e.1)
    (h2 : ∀ i, i < n → ∃ e, o2 i = some e ∧ r2.normals[i]? = some e.1)
    (hrel : ∀ i, i < n → ∀ e1 e2, o1 i = some e1 → o2 i = some e2 →
      SameUpToSign e1.1 e2.1) :
    SameUpToSigns r1 r2 := by
  refine ⟨hlen1.trans hlen2.symm, ?_⟩
  intro i n1 n2 hn1 hn2
  have hi : i < n := hlen1 ▸ (List.getElem?_eq_some.mp hn1).1
  obtain ⟨e1, he1, hg1⟩ := h1 i hi
  obtain ⟨e2, he2, hg2⟩ := h2 i hi
  rw [hn1] at hg1
  rw [hn2] at hg2
  rw [Option.some.inj hg1, Option.some.inj hg2]
  exact hrel i hi e1 e2 he1 he2

/-- C14 (the view point only chooses the sign).  For any two view points `v1`, `v2` and an
otherwise identical estimator and identical parameters, under each strategy the run with
`v1` completes exactly when the run with `v2` does, and the two results have the same
length, the same sentinel indices, and at every index entries that are equal or exact
negations of each other. -/
theorem view_point_only_affects_sign (pca : PrincipalComponentAnalysis3D F)
    (est : NormalEstimation F) (v1 v2 : Vector3f F) :
    (∀ k,
      (NormalEstimation.estimateNormalsKNN pca (est.setViewPoint v1) k).isSome =
        (NormalEstimation.estimateNormalsKNN pca (est.setViewPoint v2) k).isSome ∧
      ∀ r1 r2, NormalEstimation.estimateNormalsKNN pca (est.setViewPoint v1) k = some r1 →
        NormalEstimation.estimateNormalsKNN pca (est.setViewPoint v2) k = some r2 →
        SameUpToSigns r1 r2) ∧
    (∀ radius,
      (NormalEstimation.estimateNormalsRadius pca (est.setViewPoint v1) radius).isSome =
        (NormalEstimation.estimateNormalsRadius pca (est.setViewPoint v2) radius).isSome ∧
      ∀ r1 r2,
        NormalEstimation.estimateNormalsRadius pca (est.setViewPoint v1) radius = some r1 →
        NormalEstimation.estimateNormalsRadius pca (est.setViewPoint v2) radius = some r2 →
        SameUpToSigns r1 r2) ∧
    (∀ k radius,
      (NormalEstimation.estimateNormalsKNNInRadius pca (est.setViewPoint v1) k radius).isSome =
        (NormalEstimation.estimateNormalsKNNInRadius pca (est.setViewPoint v2) k
          radius).isSome ∧
      ∀ r1 r2,
        NormalEstimation.estimateNormalsKNNInRadius pca (est.setViewPoint v1) k radius =
          some r1 →
        NormalEstimation.estimateNormalsKNNInRadius pca (est.setViewPoint v2) k radius =
          some r2 →
        SameUpToSigns r1 r2) := by
  refine ⟨?_, ?_, ?_⟩
  · intro k
    refine ⟨Bool.eq_iff_iff.mpr ⟨knn_isSome_setViewPoint pca est v1 v2 k,
      knn_isSome_setViewPoint pca est v2 v1 k⟩, ?_⟩
    intro r1 r2 hr1 hr2
    by_cases hs : est.input_points_.length < 3
    · rw [knn_small pca (est.setViewPoint v1) k hs] at hr1
      rw [knn_small pca (est.setViewPoint v2) k hs] at hr2
      cases hr1
      cases hr2
      refine ⟨rfl, ?_⟩
      intro i n1 n2 hn1 hn2
      simp only [NormalEstimation.setViewPoint] at hn1 hn2
      rw [hn1] at hn2
      rw [Option.some.inj hn2]
      exact sameUpToSign_refl _
    · have h3 : 3 ≤ est.input_points_.length := by omega
      obtain ⟨hl1, ha1, -⟩ := knn_large pca (est.setViewPoint v1) k h3 r1 hr1
      obtain ⟨hl2, ha2, -⟩ := knn_large pca (est.setViewPoint v2) k h3 r2 hr2
      refine sameUpToSigns_of_outcomes r1 r2 est.input_points_.length _ _ hl1 hl2 ha1 ha2 ?_
      intro i hi e1 e2 he1 he2
      have hp : est.input_points_[i]? = some est.input_points_[i] :=
        List.getElem?_eq_getElem hi
      rw [knnOutcome_pointOutcome pca (est.setViewPoint v1) k i _ hp] at he1
      rw [knnOutcome_pointOutcome pca (est.setViewPoint v2) k i _ hp] at he2
      exact sameUpToSign_pointOutcome pca est v1 v2 _ _ _ _ e1 e2 he1 he2
  · intro radius
    refine ⟨Bool.eq_iff_iff.mpr ⟨radius_isSome_setViewPoint pca est v1 v2 radius,
      radius_isSome_setViewPoint pca est v2 v1 radius⟩, ?_⟩
    intro r1 r2 hr1 hr2
    obtain ⟨hl1, ha1, -⟩ := radius_run pca (est.setViewPoint v1) radius r1 hr1
    obtain ⟨hl2, ha2, -⟩ := radius_run pca (est.setViewPoint v2) radius r2 hr2
    refine sameUpToSigns_of_outcomes r1 r2 est.input_points_.length _ _ hl1 hl2 ha1 ha2 ?_
    intro i hi e1 e2 he1 he2
    have hp : est.input_points_[i]? = some est.input_points_[i] :=
      List.getElem?_eq_getElem hi
    rw [radiusOutcome_pointOutcome pca (est.setViewPoint v1) _ i _ hp] at he1
    rw [radiusOutcome_pointOutcome pca (est.setViewPoint v2) _ i _ hp] at he2
    exact sameUpToSign_pointOutcome pca est v1 v2 _ _ _ _ e1 e2 he1 he2
  · intro k radius
    refine ⟨Bool.eq_iff_iff.mpr ⟨knnInRadius_isSome_setViewPoint pca est v1 v2 k radius,
      knnInRadius_isSome_setViewPoint pca est v2 v1 k radius⟩, ?_⟩
    intro r1 r2 hr1 hr2
    obtain ⟨hl1, ha1, -⟩ := knnInRadius_run pca (est.setViewPoint v1) k radius r1 hr1
    obtain ⟨hl2, ha2, -⟩ := knnInRadius_run pca (est.setViewPoint v2) k radius r2 hr2
    refine sameUpToSigns_of_outcomes r1 r2 est.input_points_.length _ _ hl1 hl2 ha1 ha2 ?_
    intro i hi e1 e2 he1 he2
    have hp : est.input_points_[i]? = some est.input_points_[i] :=
      List.getElem?_eq_getElem hi
    rw [knnInRadiusOutcome_pointOutcome pca (est.setViewPoint v1) k _ i _ hp] at he1
    rw [knnInRadiusOutcome_pointOutcome pca (est.setViewPoint v2) k _ i _ hp] at he2
    exact sameUpToSign_pointOutcome pca est v1 v2 _ _ _ _ e1 e2 he1 he2

/-- Instance of C14: the coplanar square with `K = 3` seen from `(0, 0, 1)` and from
`(5, 0, -1)`; both runs complete and their results agree up to the sign of each entry. -/
theorem view_point_only_affects_sign_witness :
    ∃ r1 r2,
      NormalEstimation.estimateNormalsKNN Example.planeFitter
        (Example.squareEstimator.setViewPoint (Example.vec 0 0 1)) 3 = some r1 ∧
      NormalEstimation.estimateNormalsKNN Example.planeFitter
        (Example.squareEstimator.setViewPoint (Example.vec 5 0 (-1))) 3 = some r2 ∧
      SameUpToSigns r1 r2 := by
  have hs1 : (NormalEstimation.estimateNormalsKNN Example.planeFitter
      (Example.squareEstimator.setViewPoint (Example.vec 0 0 1)) 3).isSome = true := by
    decide!
  have hs2 : (NormalEstimation.estimateNormalsKNN Example.planeFitter
      (Example.squareEstimator.setViewPoint (Example.vec 5 0 (-1))) 3).isSome = true := by
    decide!
  obtain ⟨r1, hr1⟩ := Option.isSome_iff_exists.mp hs1
  obtain ⟨r2, hr2⟩ := Option.isSome_iff_exists.mp hs2
  exact ⟨r1, r2, hr1, hr2,
    ((view_point_only_affects_sign Example.planeFitter Example.squareEstimator
      (Example.vec 0 0 1) (Example.vec 5 0 (-1))).1 3).2 r1 r2 hr1 hr2⟩

theorem gatherNeighborhood_eq_none (points : List (Vector3f F)) (L : List Nat) (j : Nat)
    (hj : j ∈ L) (hout : points.length ≤ j) : gatherNeighborhood points L = none := by
  induction L with
  | nil => cases hj
  | cons a as ih =>
    simp only [gatherNeighborhood]
    rcases List.mem_cons.mp hj with rfl | hmem
    · simp [List.getElem?_eq_none hout]
    · rw [ih hmem]
      cases points[a]? <;> rfl

theorem pointOutcome_eq_none (pca : PrincipalComponentAnalysis3D F) (est : NormalEstimation F)
    (guarded : Bool) (q : Event F) (p : Vector3f F) (L : List Nat) (j : Nat) (hj : j ∈ L)
    (hout : est.input_points_.length ≤ j) (h3 : 3 ≤ L.length) :
    pointOutcome pca est guarded q p L = none := by
  unfold pointOutcome
  have hg : ¬ (guarded = true ∧ L.length < 3) := by
    intro h
    omega
  rw [if_neg hg, gatherNeighborhood_eq_none _ _ j hj hout]

/-- C19 (bounds).  When every neighbour index returned by the spatial index is below the
number of input points, all three strategies complete for every parameter, that is, no
lookup `points[neighbors[j]]` and no write `normals[i]` leaves the bounds, and every
neighbourhood is gathered in full.  The code makes no range check of its own: as soon as a
query whose result is used for fitting returns an index that is not below the number of
points, the run takes the out-of-range branch. -/
theorem lookups_in_bounds_iff_index_in_range (pca : PrincipalComponentAnalysis3D F)
    (est : NormalEstimation F) :
    (est.kd_tree_ptr_.InRange est.input_points_.length →
      (∀ k, (NormalEstimation.estimateNormalsKNN pca est k).isSome = true) ∧
      (∀ radius, (NormalEstimation.estimateNormalsRadius pca est radius).isSome = true) ∧
      (∀ k radius,
        (NormalEstimation.estimateNormalsKNNInRadius pca est k radius).isSome = true) ∧
      (∀ q k, gatherNeighborhood est.input_points_ (est.kd_tree_ptr_.kNNSearch q k).1 =
        some (positions est.input_points_ (est.kd_tree_ptr_.kNNSearch q k).1) ∧
        (positions est.input_points_ (est.kd_tree_ptr_.kNNSearch q k).1).length =
          (est.kd_tree_ptr_.kNNSearch q k).1.length)) ∧
    (∀ k (i : Nat) (p : Vector3f F) (j : Nat), 3 ≤ est.input_points_.length →
      est.input_points_[i]? = some p → j ∈ (est.kd_tree_ptr_.kNNSearch p k).1 →
      est.input_points_.length ≤ j →
      NormalEstimation.estimateNormalsKNN pca est k = none) ∧
    (∀ radius (i : Nat) (p : Vector3f F) (j : Nat), est.input_points_[i]? = some p →
      j ∈ (est.kd_tree_ptr_.radiusSearch p (FloatArith.mul radius radius)).1 →
      3 ≤ (est.kd_tree_ptr_.radiusSearch p (FloatArith.mul radius radius)).1.length →
      est.input_points_.length ≤ j →
      NormalEstimation.estimateNormalsRadius pca est radius = none) ∧
    (∀ k radius (i : Nat) (p : Vector3f F) (j : Nat), est.input_points_[i]? = some p →
      j ∈ (est.kd_tree_ptr_.kNNInRadiusSearch p k (FloatArith.mul radius radius)).1 →
      3 ≤ (est.kd_tree_ptr_.kNNInRadiusSearch p k (FloatArith.mul radius radius)).1.length →
      est.input_points_.length ≤ j →
      NormalEstimation.estimateNormalsKNNInRadius pca est k radius = none) := by
  refine ⟨?_, ?_, ?_, ?_⟩
  · intro hr
    refine ⟨fun k => knn_isSome pca est k hr, fun radius => radius_isSome pca est radius hr,
      fun k radius => knnInRadius_isSome pca est k radius hr, ?_⟩
    intro q k
    have hg := gatherNeighborhood_of_inRange est.input_points_
      (est.kd_tree_ptr_.kNNSearch q k).1 (hr.1 q k)
    refine ⟨hg, ?_⟩
    have hlen : ∀ (L : List Nat) (nbh : List (Vector3f F)),
        gatherNeighborhood est.input_points_ L = some nbh → nbh.length = L.length := by
      intro L
      induction L with
      | nil => intro nbh h; simp [gatherNeighborhood] at h; simp [← h]
      | cons a as ih =>
        intro nbh h
        simp only [gatherNeighborhood] at h
        cases ha : est.input_points_[a]? with
        | none => simp [ha] at h
        | some pa =>
          cases has : gatherNeighborhood est.input_points_ as with
          | none => simp [ha, has] at h
          | some ps =>
            simp only [ha, has, Option.some.injEq] at h
            rw [← h]
            simp [ih ps has]
    exact hlen _ _ hg
  · intro k i p j h3 hp hj hout
    cases hrun : NormalEstimation.estimateNormalsKNN pca est k with
    | none => rfl
    | some r =>
      have hi : i < est.input_points_.length := (List.getElem?_eq_some.mp hp).1
      obtain ⟨e, he, -⟩ := (knn_large pca est k h3 r hrun).2.1 i hi
      rw [knnOutcome_pointOutcome pca est k i p hp] at he
      unfold pointOutcome at he
      simp [gatherNeighborhood_eq_none _ _ j hj hout] at he
  · intro radius i p j hp hj h3 hout
    cases hrun : NormalEstimation.estimateNormalsRadius pca est radius with
    | none => rfl
    | some r =>
      have hi : i < est.input_points_.length := (List.getElem?_eq_some.mp hp).1
      obtain ⟨e, he, -⟩ := (radius_run pca est radius r hrun).2.1 i hi
      rw [radiusOutcome_pointOutcome pca est _ i p hp,
        pointOutcome_eq_none pca est true _ p _ j hj hout h3] at he
      cases he
  · intro k radius i p j hp hj h3 hout
    cases hrun : NormalEstimation.estimateNormalsKNNInRadius pca est k radius with
    | none => rfl
    | some r =>
      have hi : i < est.input_points_.length := (List.getElem?_eq_some.mp hp).1
      obtain ⟨e, he, -⟩ := (knnInRadius_run pca est k radius r hrun).2.1 i hi
      rw [knnInRadiusOutcome_pointOutcome pca est k _ i p hp,
        pointOutcome_eq_none pca est true _ p _ j hj hout h3] at he
      cases he

/-- Instance of C19: over the square, the exhaustive-search index is in range and the KNN
run completes, while the index that returns the stray index `7` sends the KNN run to the
out-of-range branch. -/
theorem lookups_in_bounds_iff_index_in_range_witness :
    Example.squareEstimator.kd_tree_ptr_.InRange Example.squareEstimator.input_points_.length ∧
    (NormalEstimation.estimateNormalsKNN Example.planeFitter Example.squareEstimator
      3).isSome = true ∧
    (7 ∈ (Example.strayEstimator.kd_tree_ptr_.kNNSearch (Example.vec 0 0 0) 3).1 ∧
      Example.strayEstimator.input_points_.length ≤ 7) ∧
    NormalEstimation.estimateNormalsKNN Example.planeFitter Example.strayEstimator 3 = none :=
  ⟨Example.bruteForce_inRange Example.square,
   ((lookups_in_bounds_iff_index_in_range Example.planeFitter Example.squareEstimator).1
      (Example.bruteForce_inRange Example.square)).1 3,
   ⟨by decide, by decide⟩,
   (lookups_in_bounds_iff_index_in_range Example.planeFitter Example.strayEstimator).2.1 3 0
      (Example.vec 0 0 0) 7 (by decide) (by decide!) (by decide) (by decide)⟩

/-- A loop over an arbitrary list of indices below `n` whose iteration `i` applies the
outcome `entry i`: when it completes, every visited slot holds the value of its outcome and
every other slot is untouched. -/
theorem foldlM_list_spec (step : Run F → Nat → Option (Run F))
    (entry : Nat → Option (Vector3f F × List (Event F))) (n : Nat)
    (hstep : ∀ st i, i < n → st.normals.length = n →
      step st i = (entry i).map (applyOutcome st i)) :
    ∀ (l : List Nat), (∀ i ∈ l, i < n) → ∀ init : Run F, init.normals.length = n →
      ∀ r, l.foldlM step init = some r →
        r.normals.length = n ∧
        (∀ i ∈ l, ∃ e, entry i = some e ∧ r.normals[i]? = some e.1) ∧
        (∀ i, i ∉ l → r.normals[i]? = init.normals[i]?) := by
  intro l
  induction l with
  | nil =>
    intro _ init hinit r hr
    simp only [List.foldlM_nil, Option.pure_def, Option.some.injEq] at hr
    subst hr
    exact ⟨hinit, fun i hi => absurd hi (List.not_mem_nil i), fun _ _ => rfl⟩
  | cons a as ih =>
    intro hl init hinit r hr
    have ha : a < n := hl a (List.mem_cons_self a as)
    rw [List.foldlM_cons, hstep init a ha hinit] at hr
    cases he : entry a with
    | none => simp [he] at hr
    | some e =>
      simp only [he, Option.map_some', Option.bind_eq_bind, Option.some_bind] at hr
      have hlen1 : (applyOutcome init a e).normals.length = n := by
        simp [applyOutcome, hinit]
      obtain ⟨hlen, hin, hout⟩ := ih (fun i hi => hl i (List.mem_cons_of_mem a hi))
        (applyOutcome init a e) hlen1 r hr
      refine ⟨hlen, ?_, ?_⟩
      · intro i hi
        by_cases hmem : i ∈ as
        · exact hin i hmem
        · have hia : i = a := by
            rcases List.mem_cons.mp hi with h | h
            · exact h
            · exact absurd h hmem
          subst hia
          refine ⟨e, he, ?_⟩
          rw [hout i hmem]
          simp [applyOutcome, List.getElem?_set_self (hinit ▸ ha)]
      · intro i hi
        have hia : i ≠ a := fun h => hi (h ▸ List.mem_cons_self a as)
        have hmem : i ∉ as := fun h => hi (List.mem_cons_of_mem a h)
        rw [hout i hmem]
        simp only [applyOutcome]
        exact List.getElem?_set_ne (Ne.symm hia)

/-- A loop as in `foldlM_list_spec` completes when every visited index has an outcome. -/
theorem foldlM_list_isSome (step : Run F → Nat → Option (Run F))
    (entry : Nat → Option (Vector3f F × List (Event F))) (n : Nat)
    (hstep : ∀ st i, i < n → st.normals.length = n →
      step st i = (entry i).map (applyOutcome st i)) :
    ∀ (l : List Nat), (∀ i ∈ l, i < n) → (∀ i ∈ l, (entry i).isSome = true) →
      ∀ init : Run F, init.normals.length = n → (l.foldlM step init).isSome = true := by
  intro l
  induction l with
  | nil => intro _ _ init _; simp
  | cons a as ih =>
    intro hl hall init hinit
    have ha : a < n := hl a (List.mem_cons_self a as)
    obtain ⟨e, he⟩ := Option.isSome_iff_exists.mp (hall a (List.mem_cons_self a as))
    rw [List.foldlM_cons, hstep init a ha hinit, he]
    simp only [Option.map_some', Option.bind_eq_bind, Option.some_bind]
    exact ih (fun i hi => hl i (List.mem_cons_of_mem a hi))
      (fun i hi => hall i (List.mem_cons_of_mem a hi)) _ (by simp [applyOutcome, hinit])

/-- Visiting the indices `0 .. n - 1` in any order produces the array of the ascending
order, and completes exactly when the ascending order does. -/
theorem foldlM_perm_range (step : Run F → Nat → Option (Run F))
    (entry : Nat → Option (Vector3f F × List (Event F))) (n : Nat)
    (hstep : ∀ st i, i < n → st.normals.length = n →
      step st i = (entry i).map (applyOutcome st i))
    (order : List Nat) (hperm : order.Perm (List.range n))
    (init : Run F) (hinit : init.normals.length = n) :
    (order.foldlM step init).map (fun r => r.normals) =
      ((List.range n).foldlM step init).map (fun r => r.normals) := by
  have hmem : ∀ i, i ∈ order ↔ i < n := fun i => by
    rw [hperm.mem_iff, List.mem_range]
  have hlt : ∀ i ∈ order, i < n := fun i hi => (hmem i).mp hi
  have hltr : ∀ i ∈ List.range n, i < n := fun i hi => List.mem_range.mp hi
  cases hasc : (List.range n).foldlM step init with
  | none =>
    cases hord : order.foldlM step init with
    | none => rfl
    | some r' =>
      exfalso
      obtain ⟨-, hin, -⟩ := foldlM_list_spec step entry n hstep order hlt init hinit r' hord
      have hsome := foldlM_list_isSome step entry n hstep (List.range n) hltr
        (fun i hi => by
          obtain ⟨e, he, -⟩ := hin i ((hmem i).mpr (List.mem_range.mp hi))
          simp [he]) init hinit
      rw [hasc] at hsome
      cases hsome
  | some r =>
    obtain ⟨hlen, hin, -⟩ := foldlM_list_spec step entry n hstep (List.range n) hltr init
      hinit r hasc
    have hsome := foldlM_list_isSome step entry n hstep order hlt
      (fun i hi => by
        obtain ⟨e, he, -⟩ := hin i (List.mem_range.mpr (hlt i hi))
        simp [he]) init hinit
    obtain ⟨r', hord⟩ := Option.isSome_iff_exists.mp hsome
    obtain ⟨hlen', hin', -⟩ := foldlM_list_spec step entry n hstep order hlt init hinit r' hord
    rw [hord]
    simp only [Option.map_some', Option.some.injEq]
    apply List.ext_getElem?
    intro i
    by_cases hi : i < n
    · obtain ⟨e, he, hg⟩ := hin i (List.mem_range.mpr hi)
      obtain ⟨e', he', hg'⟩ := hin' i ((hmem i).mpr hi)
      rw [he] at he'
      cases he'
      rw [hg, hg']
    · rw [List.getElem?_eq_none (by omega), List.getElem?_eq_none (by omega)]

theorem fitAndOrient_normals (pca : PrincipalComponentAnalysis3D F) (est : NormalEstimation F)
    (i : Nat) (p : Vector3f F) (nbh : List (Vector3f F)) (st st' : Run F)
    (h : fitAndOrient pca est i p nbh st = some st') :
    ∃ x, st'.normals = st.normals.set i x := by
  by_cases hi : i < st.normals.length
  · rw [fitAndOrient_eq pca est i p nbh st hi] at h
    cases h
    exact ⟨_, rfl⟩
  · simp [fitAndOrient, writeAt, hi] at h

theorem writeAt_eq_some (v : List (Vector3f F)) (i : Nat) (a : Vector3f F) (w : List (Vector3f F))
    (h : writeAt v i a = some w) : w = v.set i a := by
  unfold writeAt at h
  split at h
  · exact (Option.some.inj h).symm
  · cases h

theorem knn_body_normals (pca : PrincipalComponentAnalysis3D F) (est : NormalEstimation F)
    (k : Nat) (st st' : Run F) (i : Nat)
    (h : NormalEstimation.estimateNormalsKNN_body pca est k st i = some st') :
    ∃ x, st'.normals = st.normals.set i x := by
  unfold NormalEstimation.estimateNormalsKNN_body at h
  cases hp : est.input_points_[i]? with
  | none => simp [hp] at h
  | some p =>
    simp only [hp, Option.bind_eq_bind, Option.some_bind] at h
    cases hg : gatherNeighborhood est.input_points_ (est.kd_tree_ptr_.kNNSearch p k).1 with
    | none => simp [hg] at h
    | some nbh =>
      simp only [hg, Option.some_bind] at h
      obtain ⟨x, hx⟩ := fitAndOrient_normals _ _ _ _ _ _ _ h
      exact ⟨x, hx⟩

theorem radius_body_normals (pca : PrincipalComponentAnalysis3D F) (est : NormalEstimation F)
    (radius_sq : F) (st st' : Run F) (i : Nat)
    (h : NormalEstimation.estimateNormalsRadius_body pca est radius_sq st i = some st') :
    ∃ x, st'.normals = st.normals.set i x := by
  unfold NormalEstimation.estimateNormalsRadius_body at h
  cases hp : est.input_points_[i]? with
  | none => simp [hp] at h
  | some p =>
    simp only [hp, Option.bind_eq_bind, Option.some_bind] at h
    by_cases hlt : (est.kd_tree_ptr_.radiusSearch p radius_sq).1.length < 3
    · simp only [hlt, if_true] at h
      cases hw : writeAt st.normals i (Vector3f.Constant FloatArith.quiet_NaN) with
      | none => simp [hw] at h
      | some ns =>
        simp only [hw, Option.some_bind, Option.some.injEq] at h
        subst h
        exact ⟨_, writeAt_eq_some _ _ _ _ hw⟩
    · simp only [hlt, if_false] at h
      cases hg : gatherNeighborhood est.input_points_
          (est.kd_tree_ptr_.radiusSearch p radius_sq).1 with
      | none => simp [hg] at h
      | some nbh =>
        simp only [hg, Option.some_bind] at h
        obtain ⟨x, hx⟩ := fitAndOrient_normals _ _ _ _ _ _ _ h
        exact ⟨x, hx⟩

theorem knnInRadius_body_normals (pca : PrincipalComponentAnalysis3D F)
    (est : NormalEstimation F) (k : Nat) (radius_sq : F) (st st' : Run F) (i : Nat)
    (h : NormalEstimation.estimateNormalsKNNInRadius_body pca est k radius_sq st i =
      some st') :
    ∃ x, st'.normals = st.normals.set i x := by
  unfold NormalEstimation.estimateNormalsKNNInRadius_body at h
  cases hp : est.input_points_[i]? with
  | none => simp [hp] at h
  | some p =>
    simp only [hp, Option.bind_eq_bind, Option.some_bind] at h
    by_cases hlt : (est.kd_tree_ptr_.kNNInRadiusSearch p k radius_sq).1.length < 3
    · simp only [hlt, if_true] at h
      cases hw : writeAt st.normals i (Vector3f.Constant FloatArith.quiet_NaN) with
      | none => simp [hw] at h
      | some ns =>
        simp only [hw, Option.some_bind, Option.some.injEq] at h
        subst h
        exact ⟨_, writeAt_eq_some _ _ _ _ hw⟩
    · simp only [hlt, if_false] at h
      cases hg : gatherNeighborhood est.input_points_
          (est.kd_tree_ptr_.kNNInRadiusSearch p k radius_sq).1 with
      | none => simp [hg] at h
      | some nbh =>
        simp only [hg, Option.some_bind] at h
        obtain ⟨x, hx⟩ := fitAndOrient_normals _ _ _ _ _ _ _ h
        exact ⟨x, hx⟩

theorem set_other_slots (v : List (Vector3f F)) (i j : Nat) (x : Vector3f F) (w : List (Vector3f F))
    (h : w = v.set i x) (hij : j ≠ i) : w[j]? = v[j]? ∧ w.length = v.length := by
  subst h
  exact ⟨List.getElem?_set_ne (Ne.symm hij), List.length_set _ _ _⟩

/-- C15 (independence of the iterations).  For each strategy, running the loop body over
any permutation of the index range `0 .. N - 1`, from the freshly allocated array, yields
the same output array as the method itself, which runs it in ascending order, and completes
exactly when the method does; and an iteration for index `i` changes no slot of the array
other than slot `i` and keeps its length. -/
theorem loop_order_is_irrelevant (pca : PrincipalComponentAnalysis3D F)
    (est : NormalEstimation F) :
    (∀ k (order : List Nat), 3 ≤ est.input_points_.length →
      order.Perm (List.range est.input_points_.length) →
      (order.foldlM (NormalEstimation.estimateNormalsKNN_body pca est k)
        { normals := List.replicate est.input_points_.length Vector3f.uninitialized,
          trace := [] }).map (fun r => r.normals) =
      (NormalEstimation.estimateNormalsKNN pca est k).map (fun r => r.normals)) ∧
    (∀ radius (order : List Nat), order.Perm (List.range est.input_points_.length) →
      (order.foldlM
        (NormalEstimation.estimateNormalsRadius_body pca est (FloatArith.mul radius radius))
        { normals := List.replicate est.input_points_.length Vector3f.uninitialized,
          trace := [] }).map (fun r => r.normals) =
      (NormalEstimation.estimateNormalsRadius pca est radius).map (fun r => r.normals)) ∧
    (∀ k radius (order : List Nat), order.Perm (List.range est.input_points_.length) →
      (order.foldlM
        (NormalEstimation.estimateNormalsKNNInRadius_body pca est k
          (FloatArith.mul radius radius))
        { normals := List.replicate est.input_points_.length Vector3f.uninitialized,
          trace := [] }).map (fun r => r.normals) =
      (NormalEstimation.estimateNormalsKNNInRadius pca est k radius).map
        (fun r => r.normals)) ∧
    (∀ k st st' (i j : Nat),
      NormalEstimation.estimateNormalsKNN_body pca est k st i = some st' → j ≠ i →
      st'.normals[j]? = st.normals[j]? ∧ st'.normals.length = st.normals.length) ∧
    (∀ radius_sq st st' (i j : Nat),
      NormalEstimation.estimateNormalsRadius_body pca est radius_sq st i = some st' → j ≠ i →
      st'.normals[j]? = st.normals[j]? ∧ st'.normals.length = st.normals.length) ∧
    (∀ k radius_sq st st' (i j : Nat),
      NormalEstimation.estimateNormalsKNNInRadius_body pca est k radius_sq st i = some st' →
      j ≠ i →
      st'.normals[j]? = st.normals[j]? ∧ st'.normals.length = st.normals.length) := by
  refine ⟨?_, ?_, ?_, ?_, ?_, ?_⟩
  · intro k order h3 hperm
    have hn : ¬ est.input_points_.length < 3 := by omega
    simp only [NormalEstimation.estimateNormalsKNN, hn, if_false]
    exact foldlM_perm_range _ (knnOutcome pca est k) est.input_points_.length
      (fun st i hi hlen => knn_body_eq pca est k st i (hlen ▸ hi) hlen) order hperm _
      (by simp)
  · intro radius order hperm
    simp only [NormalEstimation.estimateNormalsRadius]
    exact foldlM_perm_range _ (radiusOutcome pca est (FloatArith.mul radius radius))
      est.input_points_.length
      (fun st i hi hlen => radius_body_eq pca est _ st i (hlen ▸ hi) hlen) order hperm _
      (by simp)
  · intro k radius order hperm
    simp only [NormalEstimation.estimateNormalsKNNInRadius]
    exact foldlM_perm_range _ (knnInRadiusOutcome pca est k (FloatArith.mul radius radius))
      est.input_points_.length
      (fun st i hi hlen => knnInRadius_body_eq pca est k _ st i (hlen ▸ hi) hlen) order
      hperm _ (by simp)
  · intro k st st' i j h hij
    obtain ⟨x, hx⟩ := knn_body_normals pca est k st st' i h
    exact set_other_slots _ i j x _ hx hij
  · intro radius_sq st st' i j h hij
    obtain ⟨x, hx⟩ := radius_body_normals pca est radius_sq st st' i h
    exact set_other_slots _ i j x _ hx hij
  · intro k radius_sq st st' i j h hij
    obtain ⟨x, hx⟩ := knnInRadius_body_normals pca est k radius_sq st st' i h
    exact set_other_slots _ i j x _ hx hij

/-- Instance of C15: on the coplanar square with `K = 3`, visiting the points in the order
`2, 0, 3, 1` gives the array of `estimateNormalsKNN`, the four normals `(0, 0, 1)`. -/
theorem loop_order_is_irrelevant_witness :
    3 ≤ Example.squareEstimator.input_points_.length ∧
    [2, 0, 3, 1].Perm (List.range Example.squareEstimator.input_points_.length) ∧
    ([2, 0, 3, 1].foldlM
        (NormalEstimation.estimateNormalsKNN_body Example.planeFitter
          Example.squareEstimator 3)
        { normals := List.replicate Example.squareEstimator.input_points_.length
            Vector3f.uninitialized,
          trace := [] }).map (fun r => r.normals) =
      (NormalEstimation.estimateNormalsKNN Example.planeFitter Example.squareEstimator 3).map
        (fun r => r.normals) ∧
    (NormalEstimation.estimateNormalsKNN Example.planeFitter Example.squareEstimator 3).map
        (fun r => r.normals) =
      some [Example.vec 0 0 1, Example.vec 0 0 1, Example.vec 0 0 1, Example.vec 0 0 1] :=
  ⟨by decide, by decide,
   (loop_order_is_irrelevant Example.planeFitter Example.squareEstimator).1 3 [2, 0, 3, 1]
     (by decide) (by decide),
   by decide!⟩

end cilantro
